import Mathlib

/-!
Verification development for the résumé-tailoring pipeline.

The Python sources under `src/` are shallowly embedded here:
strings are modelled as `List Char`, Python floats as `ℚ`, and the
pattern-matching helpers from the standard library (`re`, `difflib`,
`nltk`) are modelled by executable Lean functions whose doc comments
say what they stand for.  Every scoring function is translated
clause-by-clause from the corresponding Python function.
-/

namespace JobApp

/-- Python `str`, modelled as a list of characters. -/
abbrev Text := List Char

/-- `String.toList`, to write text literals compactly. -/
def txt (s : String) : Text := s.toList

/-- Python `str.lower()` (ASCII model). -/
def lowerText (t : Text) : Text := t.map Char.toLower

/-- `p.isPrefixOf s` written out: does `s` start with `p`?  Models a
regex literal anchored at the current position. -/
def startsWithT : Text → Text → Bool
  | _, [] => true
  | [], _ :: _ => false
  | c :: cs, d :: ds => c = d && startsWithT cs ds

/-- Python `p in s` (substring containment). -/
def containsSub : Text → Text → Bool
  | [], p => startsWithT [] p
  | c :: rest, p => startsWithT (c :: rest) p || containsSub rest p

/-! ## ATS data model (`src/resume/ats/models.py`, `src/resume/models.py`) -/

/-- `KeywordCategory` enum from `resume/ats/models.py`. -/
inductive KeywordCategory
  | required | technical | softSkill | tool | domain | certification | experienceKw
  deriving DecidableEq, Repr

/-- `MatchType` enum from `resume/ats/models.py`; the constructor `part`
models Python's `PARTIAL`. -/
inductive MatchType
  | exact | synonym | part | stemmed | missing
  deriving DecidableEq, Repr

/-- `Keyword` dataclass from `resume/ats/models.py`. -/
structure Keyword where
  text : Text
  category : KeywordCategory
  importance : ℚ
  synonyms : List Text := []
  deriving DecidableEq, Repr

/-- `KeywordMatch` dataclass from `resume/ats/models.py`. -/
structure KeywordMatch where
  keyword : Keyword
  match_type : MatchType
  matched_text : Text
  locations : List String
  frequency : ℕ
  context_score : ℚ := 0
  deriving DecidableEq, Repr

/-- The `base_scores` table inside `KeywordMatch.score`. -/
def MatchType.baseScore : MatchType → ℚ
  | .exact => 1
  | .synonym => 0.9
  | .stemmed => 0.8
  | .part => 0.6
  | .missing => 0

/-- The `score` property of `KeywordMatch`
(`resume/ats/models.py`, lines 56–75). -/
def KeywordMatch.score (m : KeywordMatch) : ℚ :=
  let base := m.match_type.baseScore
  let frequencyMultiplier := min (1 + ((m.frequency : ℚ) - 1) * 0.1) 1.3
  let contextBonus := m.context_score * 0.2
  min (base * frequencyMultiplier + contextBonus) 1

/-- `BulletPoint` from `resume/models.py` (the fields the scorers read;
`sec`/`subsectionName` model `section`/`subsection`). -/
structure BulletPoint where
  id : Text
  text : Text
  sec : String
  subsectionName : Text := []
  deriving DecidableEq, Repr

/-- `ExperienceEntry` from `resume/models.py`.  `Optional[str]` fields are
modelled as possibly-empty text (Python truthiness). -/
structure ExperienceEntry where
  title : Text
  company : Text
  start_date : Text := []
  end_date : Text := []
  bullets : List BulletPoint := []
  deriving DecidableEq, Repr

/-- `EducationEntry` from `resume/models.py`. -/
structure EducationEntry where
  degree : Text
  institution : Text
  deriving DecidableEq, Repr

/-- `SkillsSection` from `resume/models.py`. -/
structure SkillsSection where
  technical : List Text := []
  tools : List Text := []
  languages : List Text := []
  deriving DecidableEq, Repr

/-- `PersonalInfo` from `resume/models.py`; `None` is the empty text. -/
structure PersonalInfo where
  name : Text := []
  email : Text := []
  phone : Text := []
  location : Text := []
  linkedin : Text := []
  github : Text := []
  deriving DecidableEq, Repr

/-- `ParsedResume` from `resume/models.py` (the fields the scorers read). -/
structure ParsedResume where
  personal : PersonalInfo
  summary : Text := []
  experience : List ExperienceEntry := []
  education : List EducationEntry := []
  skills : SkillsSection := {}
  certifications : List Text := []
  all_bullets : List BulletPoint := []
  deriving DecidableEq, Repr

/-- `JobDescription` from `resume/ats/models.py` (the fields
`ATSScorer` reads). -/
structure JobDescription where
  title : Text := []
  required_experience_years : Option ℕ := none
  deriving DecidableEq, Repr

/-! ## ATS scorer (`src/resume/ats/scorer.py`) -/

namespace ATSScorer

/-- `ATSScorer._calculate_keyword_score` (scorer.py lines 116–157). -/
def calculate_keyword_score (matchList : List KeywordMatch)
    (keywords : List Keyword) : ℚ :=
  if keywords = [] then 0
  else
    let totalWeightedScore := (matchList.map fun m => m.score * m.keyword.importance).sum
    let totalWeight := (matchList.map fun m => m.keyword.importance).sum
    if totalWeight = 0 then 0
    else
      let rawScore := totalWeightedScore / totalWeight * 100
      let missingCritical := matchList.filter fun m =>
        m.match_type = MatchType.missing ∧ m.keyword.importance ≥ 0.8
      let penalty : ℚ := (missingCritical.length : ℚ) * 5
      max 0 (min 100 (rawScore - penalty))

/-- The `title_keywords` list inside `_calculate_experience_score`. -/
def titleKeywords : List Text :=
  [txt "kafka", txt "administrator", txt "devops", txt "platform",
   txt "engineer", txt "sre"]

/-- The `for exp in resume.experience` loop of part 2 of
`_calculate_experience_score`: the first experience entry with a
positive keyword overlap contributes `min 30 (overlap * 10)` and the
loop breaks. -/
def titleOverlapScore (exps : List ExperienceEntry) (jdTitleLower : Text) : ℚ :=
  match exps with
  | [] => 0
  | exp :: rest =>
    let expTitleLower := lowerText exp.title
    let overlap := (titleKeywords.filter fun kw =>
      containsSub expTitleLower kw && containsSub jdTitleLower kw).length
    if overlap > 0 then min 30 ((overlap : ℚ) * 10)
    else titleOverlapScore rest jdTitleLower

/-- `ATSScorer._calculate_experience_score` (scorer.py lines 159–220).
Python truthiness: `if jd.required_experience_years:` is false both for
`None` and for `0`; `if jd.title:` is false for the empty string. -/
def calculate_experience_score (resume : ParsedResume) (jd : JobDescription) : ℚ :=
  let s1 : ℚ :=
    match jd.required_experience_years with
    | some req =>
      if req ≠ 0 then
        let totalYears := resume.experience.length
        if totalYears ≥ req then 40
        else 40 * ((totalYears : ℚ) / (req : ℚ))
      else if resume.experience ≠ [] then 30 else 0
    | none => if resume.experience ≠ [] then 30 else 0
  let s2 : ℚ :=
    if resume.experience ≠ [] ∧ jd.title ≠ [] then
      titleOverlapScore resume.experience (lowerText jd.title)
    else if resume.experience ≠ [] then 15 else 0
  let s3 : ℚ :=
    match resume.experience with
    | [] => 0
    | recentExp :: _ =>
      if containsSub (lowerText recentExp.end_date) (txt "present") then 15 else 10
  let s4 : ℚ :=
    if resume.experience.length ≥ 2 then 15
    else if resume.experience.length = 1 then 10 else 0
  min 100 (s1 + s2 + s3 + s4)

/-- `ATSScorer._calculate_skills_score` (scorer.py lines 223–296). -/
def calculate_skills_score (resume : ParsedResume)
    (matchList : List KeywordMatch) : ℚ :=
  let techMatches := matchList.filter fun m =>
    m.match_type ≠ MatchType.missing ∧ m.keyword.category = KeywordCategory.technical
  let s1 : ℚ :=
    if techMatches ≠ [] then
      let allTech := matchList.filter fun m =>
        m.keyword.category = KeywordCategory.technical
      let techRate : ℚ :=
        if allTech ≠ [] then (techMatches.length : ℚ) / (allTech.length : ℚ) else 0
      techRate * 50
    else 0
  let toolMatches := matchList.filter fun m =>
    m.match_type ≠ MatchType.missing ∧ m.keyword.category = KeywordCategory.tool
  let s2 : ℚ :=
    if toolMatches ≠ [] then
      let allTools := matchList.filter fun m =>
        m.keyword.category = KeywordCategory.tool
      let toolRate : ℚ :=
        if allTools ≠ [] then (toolMatches.length : ℚ) / (allTools.length : ℚ) else 0
      toolRate * 25
    else 0
  let certMatches := matchList.filter fun m =>
    m.match_type ≠ MatchType.missing ∧ m.keyword.category = KeywordCategory.certification
  let s3 : ℚ :=
    if certMatches ≠ [] then 15
    else if resume.certifications ≠ [] then 10 else 0
  let totalSkills :=
    resume.skills.technical.length + resume.skills.tools.length +
      resume.skills.languages.length
  let s4 : ℚ :=
    if totalSkills ≥ 15 then 10
    else if totalSkills ≥ 10 then 7
    else if totalSkills ≥ 5 then 5 else 0
  min 100 (s1 + s2 + s3 + s4)

/-- The degree-level loop of `_calculate_education_score`: the first
education entry matching a level keyword contributes and breaks. -/
def degreeLevelScore : List EducationEntry → ℚ
  | [] => 0
  | edu :: rest =>
    let d := lowerText edu.degree
    if [txt "phd", txt "doctorate", txt "doctor"].any (containsSub d) then 30
    else if [txt "master", txt "ms", txt "msc", txt "mba"].any (containsSub d) then 25
    else if [txt "bachelor", txt "bs", txt "ba", txt "bsc"].any (containsSub d) then 20
    else if containsSub d (txt "diploma") then 15
    else degreeLevelScore rest

/-- The `relevant_fields` list inside `_calculate_education_score`. -/
def relevantFields : List Text :=
  [txt "computer", txt "software", txt "information", txt "technology",
   txt "engineering", txt "science"]

/-- `ATSScorer._calculate_education_score` (scorer.py lines 298–348).
The `jd` argument is accepted and ignored, exactly as in the source. -/
def calculate_education_score (resume : ParsedResume) (_jd : JobDescription) : ℚ :=
  if resume.education = [] then 30
  else
    let s1 : ℚ := 50
    let s2 := degreeLevelScore resume.education
    let s3 : ℚ :=
      if resume.education.any (fun edu =>
          relevantFields.any (containsSub (lowerText edu.degree))) then 20
      else 0
    min 100 (s1 + s2 + s3)

/-- `ATSScorer._calculate_format_score` (scorer.py lines 350–402). -/
def calculate_format_score (resume : ParsedResume) : ℚ :=
  let s1 : ℚ := 20
  let sectionsPresent : ℕ :=
    (if resume.personal.name ≠ [] then 1 else 0) +
    (if resume.personal.email ≠ [] then 1 else 0) +
    (if resume.experience ≠ [] then 1 else 0) +
    (if resume.education ≠ [] then 1 else 0) +
    (if resume.skills.technical ≠ [] ∨ resume.skills.tools ≠ [] then 1 else 0)
  let s2 : ℚ := ((sectionsPresent : ℚ) / 5) * 40
  let totalBullets := resume.all_bullets.length
  let s3 : ℚ :=
    if 10 ≤ totalBullets ∧ totalBullets ≤ 25 then 20
    else if (5 ≤ totalBullets ∧ totalBullets < 10) ∨
            (25 < totalBullets ∧ totalBullets ≤ 30) then 15
    else 10
  let contactScore : ℚ :=
    (if resume.personal.email ≠ [] then 5 else 0) +
    (if resume.personal.phone ≠ [] then 5 else 0) +
    (if resume.personal.linkedin ≠ [] then 5 else 0) +
    (if resume.personal.github ≠ [] then 5 else 0)
  min 100 (s1 + s2 + s3 + contactScore)

/-- The `overall` computation of `ATSScorer.score_resume`
(scorer.py lines 72–79), with the `WEIGHTS` table inlined. -/
def overall_score (resume : ParsedResume) (jd : JobDescription)
    (matchList : List KeywordMatch) (keywords : List Keyword) : ℚ :=
  calculate_keyword_score matchList keywords * 0.40 +
  calculate_experience_score resume jd * 0.20 +
  calculate_skills_score resume matchList * 0.20 +
  calculate_education_score resume jd * 0.10 +
  calculate_format_score resume * 0.10

end ATSScorer

/-! ## Job-fit data model (`src/resume/job_fit/models.py`) -/

/-- `SkillLevel` enum. -/
inductive SkillLevel
  | expert | advanced | intermediate | beginner | noLevel
  deriving DecidableEq, Repr

/-- `ExperienceLevel` enum. -/
inductive ExperienceLevel
  | senior | mid | junior | entry
  deriving DecidableEq, Repr

/-- `SkillMatch` dataclass (the fields the fit scorer reads). -/
structure SkillMatch where
  skill_name : Text
  required_level : SkillLevel
  candidate_level : SkillLevel
  match_strength : ℚ
  deriving DecidableEq, Repr

/-- `SkillGap` dataclass (the fields the fit scorer reads). -/
structure SkillGap where
  skill_name : Text
  required_level : SkillLevel
  current_level : SkillLevel
  importance : ℚ
  gap_severity : String
  deriving DecidableEq, Repr

/-- `ExperienceMatch` dataclass (the fields the fit scorer reads).
`duration_months` is a Python `int`, hence `ℤ`. -/
structure ExperienceMatch where
  job_title : Text
  company : Text
  relevance_score : ℚ
  duration_months : ℤ
  recency_score : ℚ
  deriving DecidableEq, Repr

/-- `CultureFitIndicators` dataclass. -/
structure CultureFitIndicators where
  company_size_match : Bool
  industry_match : Bool
  work_style_indicators : List String
  values_alignment : List String
  deriving DecidableEq, Repr

/-- The `fit_score` property of `CultureFitIndicators`
(`resume/job_fit/models.py`, lines 80–92). -/
def CultureFitIndicators.fit_score (c : CultureFitIndicators) : ℚ :=
  (if c.company_size_match then 0.3 else 0) +
  (if c.industry_match then 0.3 else 0) +
  (if c.work_style_indicators ≠ [] then 0.2 else 0) +
  (if c.values_alignment ≠ [] then 0.2 else 0)

/-- `CareerTrajectory` dataclass (the fields the fit scorer reads). -/
structure CareerTrajectory where
  current_level : ExperienceLevel
  progression_trend : String
  promotions_count : ℕ
  avg_tenure_months : ℚ
  deriving DecidableEq, Repr

/-- `JobRequirements` (the fields `_calculate_education_fit` reads;
`education_required = []` models `None`). -/
structure JobRequirements where
  job_title : Text := []
  min_years_experience : ℕ := 0
  experience_level : ExperienceLevel := ExperienceLevel.mid
  education_required : Text := []
  certifications_required : List Text := []
  deriving DecidableEq, Repr

/-! ## Job-fit scorer components
(`skill_matcher.py`, `experience_evaluator.py`, `career_trajectory.py`,
`fit_scorer.py`) -/

/-- `SkillMatcher.calculate_skill_fit_score`
(`resume/job_fit/skill_matcher.py`, lines 300–324). -/
def calculate_skill_fit_score (skillMatches : List SkillMatch)
    (gaps : List SkillGap) : ℚ :=
  if skillMatches = [] ∧ gaps = [] then 0.0
  else
    let totalSkills := skillMatches.length + gaps.length
    let matchScore := (skillMatches.map fun m => m.match_strength).sum
    let maxPossible : ℚ := (totalSkills : ℚ)
    let criticalGaps := gaps.filter fun g => g.gap_severity = "critical"
    let penalty : ℚ := (criticalGaps.length : ℚ) * 0.2
    let score : ℚ := if maxPossible > 0 then matchScore / maxPossible * 100 else 0
    let score := max 0 (score - penalty * 10)
    min score 100

/-- `ExperienceEvaluator.calculate_experience_fit_score`
(`resume/job_fit/experience_evaluator.py`, lines 226–255). -/
def calculate_experience_fit_score (expMatches : List ExperienceMatch)
    (minYearsRequired : ℕ) : ℚ :=
  if expMatches = [] then 0.0
  else
    let totalMonths : ℤ :=
      ((expMatches.filter fun m => m.relevance_score > 0.5).map
        fun m => m.duration_months).sum
    let totalYears : ℚ := (totalMonths : ℚ) / 12
    let yearsScore : ℚ :=
      if minYearsRequired > 0 then min (totalYears / (minYearsRequired : ℚ)) 1.0
      else 1.0
    let avgRelevance : ℚ :=
      (expMatches.map fun m => m.relevance_score).sum / (expMatches.length : ℚ)
    let avgRecency : ℚ :=
      (expMatches.map fun m => m.recency_score).sum / (expMatches.length : ℚ)
    let totalScore := (yearsScore * 0.4 + avgRelevance * 0.4 + avgRecency * 0.2) * 100
    min totalScore 100

/-- The `level_scores` table inside
`CareerTrajectoryAnalyzer.calculate_trajectory_fit_score`. -/
def levelScore : ExperienceLevel → ℚ
  | .entry => 1
  | .junior => 2
  | .mid => 3
  | .senior => 4

/-- `CareerTrajectoryAnalyzer.calculate_trajectory_fit_score`
(`resume/job_fit/career_trajectory.py`, lines 258–303). -/
def calculate_trajectory_fit_score (trajectory : CareerTrajectory)
    (requiredLevel : ExperienceLevel) : ℚ :=
  let currentScore := levelScore trajectory.current_level
  let requiredScore := levelScore requiredLevel
  let s1 : ℚ :=
    if currentScore ≥ requiredScore then 50
    else currentScore / requiredScore * 50
  let s2 : ℚ :=
    if trajectory.progression_trend = "upward" then 20
    else if trajectory.progression_trend = "lateral" then 10 else 0
  let s3 : ℚ :=
    if trajectory.promotions_count ≥ 2 then 15
    else if trajectory.promotions_count = 1 then 10 else 0
  let s4 : ℚ :=
    if 18 ≤ trajectory.avg_tenure_months ∧ trajectory.avg_tenure_months ≤ 48 then 15
    else if 12 ≤ trajectory.avg_tenure_months ∧ trajectory.avg_tenure_months < 18 then 10
    else 0
  min (s1 + s2 + s3 + s4) 100

/-- `JobFitScorer._calculate_education_fit`
(`resume/job_fit/fit_scorer.py`, lines 134–170). -/
def calculate_education_fit (resume : ParsedResume)
    (jr : JobRequirements) : ℚ :=
  if resume.education = [] then 50.0
  else
    let base : ℚ := 50.0
    let s1 : ℚ :=
      if jr.education_required ≠ [] then
        if resume.education.any (fun edu =>
            containsSub (lowerText edu.degree) (lowerText jr.education_required) ||
            containsSub (lowerText jr.education_required) (lowerText edu.degree)) then 30
        else 0
      else 20
    let certMatch := jr.certifications_required.any fun rc =>
      resume.certifications.any fun c => containsSub (lowerText c) (lowerText rc)
    let s2 : ℚ :=
      if certMatch then 20
      else if resume.certifications ≠ [] then 10 else 0
    min (base + s1 + s2) 100

/-- The `overall_fit` computation of `JobFitScorer.score_fit`
(`resume/job_fit/fit_scorer.py`, lines 88–94), with the `WEIGHTS` table
inlined; `culture_fit = culture_indicators.fit_score * 100` (line 82). -/
def overall_fit (skillMatches : List SkillMatch) (gaps : List SkillGap)
    (expMatches : List ExperienceMatch) (trajectory : CareerTrajectory)
    (culture : CultureFitIndicators) (resume : ParsedResume)
    (jr : JobRequirements) : ℚ :=
  calculate_skill_fit_score skillMatches gaps * 0.35 +
  calculate_experience_fit_score expMatches jr.min_years_experience * 0.30 +
  calculate_trajectory_fit_score trajectory jr.experience_level * 0.15 +
  (culture.fit_score * 100) * 0.10 +
  calculate_education_fit resume jr * 0.10

/-! ## Component bounds -/

theorem calculate_keyword_score_mem (matchList : List KeywordMatch)
    (keywords : List Keyword) :
    ATSScorer.calculate_keyword_score matchList keywords ∈ Set.Icc (0:ℚ) 100 := by
  unfold ATSScorer.calculate_keyword_score
  rw [Set.mem_Icc]
  try dsimp only
  split_ifs
  · norm_num
  · norm_num
  · exact ⟨le_max_left _ _, max_le (by norm_num) (min_le_left _ _)⟩

theorem titleOverlapScore_nonneg (exps : List ExperienceEntry) (t : Text) :
    0 ≤ ATSScorer.titleOverlapScore exps t := by
  induction exps with
  | nil => simp [ATSScorer.titleOverlapScore]
  | cons e rest ih =>
    rw [ATSScorer.titleOverlapScore]
    try dsimp only
    split_ifs
    · exact le_min (by norm_num) (by positivity)
    · exact ih

theorem calculate_experience_score_mem (resume : ParsedResume)
    (jd : JobDescription) :
    ATSScorer.calculate_experience_score resume jd ∈ Set.Icc (0:ℚ) 100 := by
  unfold ATSScorer.calculate_experience_score
  rw [Set.mem_Icc]
  try dsimp only
  refine ⟨le_min (by norm_num) ?_, min_le_left _ _⟩
  refine add_nonneg (add_nonneg (add_nonneg ?_ ?_) ?_) ?_ <;>
    (repeat' split) <;>
    first
      | positivity
      | exact titleOverlapScore_nonneg _ _

theorem calculate_skills_score_mem (resume : ParsedResume)
    (matchList : List KeywordMatch) :
    ATSScorer.calculate_skills_score resume matchList ∈ Set.Icc (0:ℚ) 100 := by
  unfold ATSScorer.calculate_skills_score
  rw [Set.mem_Icc]
  try dsimp only
  refine ⟨le_min (by norm_num) ?_, min_le_left _ _⟩
  refine add_nonneg (add_nonneg (add_nonneg ?_ ?_) ?_) ?_ <;>
    (repeat' split) <;> positivity

theorem degreeLevelScore_nonneg (edus : List EducationEntry) :
    0 ≤ ATSScorer.degreeLevelScore edus := by
  induction edus with
  | nil => simp [ATSScorer.degreeLevelScore]
  | cons e rest ih =>
    rw [ATSScorer.degreeLevelScore]
    try dsimp only
    split_ifs <;> first | exact ih | norm_num

theorem calculate_education_score_mem (resume : ParsedResume)
    (jd : JobDescription) :
    ATSScorer.calculate_education_score resume jd ∈ Set.Icc (0:ℚ) 100 := by
  unfold ATSScorer.calculate_education_score
  rw [Set.mem_Icc]
  try dsimp only
  split_ifs
  · norm_num
  all_goals
    have h := degreeLevelScore_nonneg resume.education
    exact ⟨le_min (by norm_num) (by linarith), min_le_left _ _⟩

theorem calculate_format_score_mem (resume : ParsedResume) :
    ATSScorer.calculate_format_score resume ∈ Set.Icc (0:ℚ) 100 := by
  unfold ATSScorer.calculate_format_score
  rw [Set.mem_Icc]
  try dsimp only
  refine ⟨le_min (by norm_num) ?_, min_le_left _ _⟩
  refine add_nonneg (add_nonneg (add_nonneg (by norm_num) ?_) ?_) ?_ <;>
    (repeat' split) <;> positivity

theorem calculate_skill_fit_score_mem (skillMatches : List SkillMatch)
    (gaps : List SkillGap) :
    calculate_skill_fit_score skillMatches gaps ∈ Set.Icc (0:ℚ) 100 := by
  unfold calculate_skill_fit_score
  rw [Set.mem_Icc]
  try dsimp only
  split_ifs
  · norm_num
  all_goals exact ⟨le_min (le_max_left _ _) (by norm_num), min_le_right _ _⟩

theorem sum_map_nonneg {A : Type} (l : List A) (f : A → ℚ)
    (h : ∀ a ∈ l, 0 ≤ f a) : 0 ≤ (l.map f).sum := by
  refine List.sum_nonneg ?_
  intro x hx
  rcases List.mem_map.mp hx with ⟨m, hm, rfl⟩
  exact h m hm

theorem sum_map_nonneg_int {A : Type} (l : List A) (f : A → ℤ)
    (h : ∀ a ∈ l, 0 ≤ f a) : 0 ≤ (l.map f).sum := by
  refine List.sum_nonneg ?_
  intro x hx
  rcases List.mem_map.mp hx with ⟨m, hm, rfl⟩
  exact h m hm

theorem calculate_experience_fit_score_mem (expMatches : List ExperienceMatch)
    (minYearsRequired : ℕ)
    (hdur : ∀ m ∈ expMatches, 0 ≤ m.duration_months)
    (hrel : ∀ m ∈ expMatches, 0 ≤ m.relevance_score)
    (hrec : ∀ m ∈ expMatches, 0 ≤ m.recency_score) :
    calculate_experience_fit_score expMatches minYearsRequired ∈ Set.Icc (0:ℚ) 100 := by
  have hm : (0:ℤ) ≤ ((expMatches.filter fun m => m.relevance_score > 0.5).map
      fun m => m.duration_months).sum :=
    sum_map_nonneg_int _ _ fun a ha => hdur a (List.mem_of_mem_filter ha)
  have hmq : (0:ℚ) ≤ (((((expMatches.filter fun m => m.relevance_score > 0.5)).map
      fun m => m.duration_months).sum : ℤ) : ℚ) := by exact_mod_cast hm
  have hrelS : (0:ℚ) ≤ (expMatches.map fun m => m.relevance_score).sum :=
    sum_map_nonneg _ _ hrel
  have hrecS : (0:ℚ) ≤ (expMatches.map fun m => m.recency_score).sum :=
    sum_map_nonneg _ _ hrec
  have hlen : (0:ℚ) ≤ (expMatches.length : ℚ) := by positivity
  unfold calculate_experience_fit_score
  rw [Set.mem_Icc]
  try dsimp only
  split_ifs with h hy
  · norm_num
  all_goals refine ⟨le_min ?_ (by norm_num), min_le_right _ _⟩
  all_goals
    refine mul_nonneg (add_nonneg (add_nonneg ?_ ?_) ?_) (by norm_num)
  · exact mul_nonneg (le_min (div_nonneg (div_nonneg hmq (by norm_num)) (by positivity))
      (by norm_num)) (by norm_num)
  · exact mul_nonneg (div_nonneg hrelS hlen) (by norm_num)
  · exact mul_nonneg (div_nonneg hrecS hlen) (by norm_num)
  · exact mul_nonneg (by norm_num) (by norm_num)
  · exact mul_nonneg (div_nonneg hrelS hlen) (by norm_num)
  · exact mul_nonneg (div_nonneg hrecS hlen) (by norm_num)

theorem levelScore_pos (l : ExperienceLevel) : 0 < levelScore l := by
  cases l <;> norm_num [levelScore]

theorem calculate_trajectory_fit_score_mem (trajectory : CareerTrajectory)
    (requiredLevel : ExperienceLevel) :
    calculate_trajectory_fit_score trajectory requiredLevel ∈ Set.Icc (0:ℚ) 100 := by
  unfold calculate_trajectory_fit_score
  rw [Set.mem_Icc]
  try dsimp only
  refine ⟨le_min ?_ (by norm_num), min_le_right _ _⟩
  have h1 := levelScore_pos trajectory.current_level
  have h2 := levelScore_pos requiredLevel
  refine add_nonneg (add_nonneg (add_nonneg ?_ ?_) ?_) ?_ <;> (repeat' split) <;>
    first
      | exact mul_nonneg (div_nonneg h1.le h2.le) (by norm_num)
      | norm_num

theorem calculate_education_fit_mem (resume : ParsedResume)
    (jr : JobRequirements) :
    calculate_education_fit resume jr ∈ Set.Icc (0:ℚ) 100 := by
  unfold calculate_education_fit
  rw [Set.mem_Icc]
  try dsimp only
  split_ifs <;> norm_num

theorem culture_component_mem (c : CultureFitIndicators) :
    c.fit_score * 100 ∈ Set.Icc (0:ℚ) 100 := by
  rw [Set.mem_Icc]
  unfold CultureFitIndicators.fit_score
  split_ifs <;> norm_num

/-! ## Sample inputs used by witnesses -/

/-- A minimal resume (all sections empty). -/
def resume0 : ParsedResume := { personal := {} }

/-- A minimal job description. -/
def jd0 : JobDescription := {}

/-- A sample career trajectory. -/
def trajectory0 : CareerTrajectory :=
  { current_level := ExperienceLevel.mid, progression_trend := "upward",
    promotions_count := 1, avg_tenure_months := 24 }

/-- A sample culture-fit indicator record. -/
def culture0 : CultureFitIndicators :=
  { company_size_match := true, industry_match := false,
    work_style_indicators := [], values_alignment := [] }

/-- A minimal job-requirements record. -/
def jr0 : JobRequirements := {}

/-- A sample keyword ("kafka", technical, importance 1). -/
def kw0 : Keyword :=
  { text := txt "kafka", category := KeywordCategory.technical, importance := 1 }

/-- A sample exact match of `kw0` with frequency 2 and context 0.5. -/
def m0 : KeywordMatch :=
  { keyword := kw0, match_type := MatchType.exact, matched_text := txt "kafka",
    locations := ["experience"], frequency := 2, context_score := 0.5 }

/-- A missing match carrying a (synthetic) nonzero context score. -/
def m_missing_ctx : KeywordMatch :=
  { keyword := kw0, match_type := MatchType.missing, matched_text := [],
    locations := [], frequency := 0, context_score := 1 }

/-! ## C1 -/

/-- C1 (amended): for every parsed resume and job description, the ATS
overall score is within 0.05 of `0.40·keyword + 0.20·experience +
0.20·skills + 0.10·education + 0.10·format` and the fit overall is
within 0.05 of `0.35·skill + 0.30·experience + 0.15·trajectory +
0.10·culture + 0.10·education` (both are in fact exactly the weighted
sums); and all ten component scores lie in [0, 100] *provided* the
experience matches fed to the fit experience component carry
nonnegative durations (relevance and recency are nonnegative by the
evaluator's construction, taken as hypotheses alongside).  Without
that proviso the claim is false: `_calculate_duration` returns
`(end_year − start_year) * 12` unclamped, so a reversed date range
yields a negative duration and a negative fit experience component —
see the counterexample below.  The other nine components are bounded
unconditionally (their proofs do not use the hypotheses). -/
theorem scorer_overall_weighted_sum_components_bounded
    (resume : ParsedResume) (jd : JobDescription)
    (matchList : List KeywordMatch) (keywords : List Keyword)
    (skillMatches : List SkillMatch) (gaps : List SkillGap)
    (expMatches : List ExperienceMatch) (trajectory : CareerTrajectory)
    (culture : CultureFitIndicators) (jr : JobRequirements)
    (hdur : ∀ m ∈ expMatches, 0 ≤ m.duration_months)
    (hrel : ∀ m ∈ expMatches, 0 ≤ m.relevance_score)
    (hrec : ∀ m ∈ expMatches, 0 ≤ m.recency_score) :
    |ATSScorer.overall_score resume jd matchList keywords -
      (0.40 * ATSScorer.calculate_keyword_score matchList keywords +
       0.20 * ATSScorer.calculate_experience_score resume jd +
       0.20 * ATSScorer.calculate_skills_score resume matchList +
       0.10 * ATSScorer.calculate_education_score resume jd +
       0.10 * ATSScorer.calculate_format_score resume)| ≤ 0.05 ∧
    |overall_fit skillMatches gaps expMatches trajectory culture resume jr -
      (0.35 * calculate_skill_fit_score skillMatches gaps +
       0.30 * calculate_experience_fit_score expMatches jr.min_years_experience +
       0.15 * calculate_trajectory_fit_score trajectory jr.experience_level +
       0.10 * (culture.fit_score * 100) +
       0.10 * calculate_education_fit resume jr)| ≤ 0.05 ∧
    ATSScorer.calculate_keyword_score matchList keywords ∈ Set.Icc (0:ℚ) 100 ∧
    ATSScorer.calculate_experience_score resume jd ∈ Set.Icc (0:ℚ) 100 ∧
    ATSScorer.calculate_skills_score resume matchList ∈ Set.Icc (0:ℚ) 100 ∧
    ATSScorer.calculate_education_score resume jd ∈ Set.Icc (0:ℚ) 100 ∧
    ATSScorer.calculate_format_score resume ∈ Set.Icc (0:ℚ) 100 ∧
    calculate_skill_fit_score skillMatches gaps ∈ Set.Icc (0:ℚ) 100 ∧
    calculate_experience_fit_score expMatches jr.min_years_experience ∈
      Set.Icc (0:ℚ) 100 ∧
    calculate_trajectory_fit_score trajectory jr.experience_level ∈
      Set.Icc (0:ℚ) 100 ∧
    culture.fit_score * 100 ∈ Set.Icc (0:ℚ) 100 ∧
    calculate_education_fit resume jr ∈ Set.Icc (0:ℚ) 100 := by
  refine ⟨?_, ?_, calculate_keyword_score_mem _ _,
    calculate_experience_score_mem _ _, calculate_skills_score_mem _ _,
    calculate_education_score_mem _ _, calculate_format_score_mem _,
    calculate_skill_fit_score_mem _ _,
    calculate_experience_fit_score_mem _ _ hdur hrel hrec,
    calculate_trajectory_fit_score_mem _ _, culture_component_mem _,
    calculate_education_fit_mem _ _⟩
  · have h : ATSScorer.overall_score resume jd matchList keywords =
        0.40 * ATSScorer.calculate_keyword_score matchList keywords +
        0.20 * ATSScorer.calculate_experience_score resume jd +
        0.20 * ATSScorer.calculate_skills_score resume matchList +
        0.10 * ATSScorer.calculate_education_score resume jd +
        0.10 * ATSScorer.calculate_format_score resume := by
      unfold ATSScorer.overall_score; ring
    rw [h, sub_self, abs_zero]; norm_num
  · have h : overall_fit skillMatches gaps expMatches trajectory culture resume jr =
        0.35 * calculate_skill_fit_score skillMatches gaps +
        0.30 * calculate_experience_fit_score expMatches jr.min_years_experience +
        0.15 * calculate_trajectory_fit_score trajectory jr.experience_level +
        0.10 * (culture.fit_score * 100) +
        0.10 * calculate_education_fit resume jr := by
      unfold overall_fit; ring
    rw [h, sub_self, abs_zero]; norm_num

/-- Witness for C1 at a concrete (empty-pipeline) input. -/
theorem scorer_overall_weighted_sum_components_bounded_witness :
    (∀ m ∈ ([] : List ExperienceMatch), 0 ≤ m.duration_months) ∧
    (|ATSScorer.overall_score resume0 jd0 [] [] -
      (0.40 * ATSScorer.calculate_keyword_score [] [] +
       0.20 * ATSScorer.calculate_experience_score resume0 jd0 +
       0.20 * ATSScorer.calculate_skills_score resume0 [] +
       0.10 * ATSScorer.calculate_education_score resume0 jd0 +
       0.10 * ATSScorer.calculate_format_score resume0)| ≤ 0.05 ∧
    |overall_fit [] [] [] trajectory0 culture0 resume0 jr0 -
      (0.35 * calculate_skill_fit_score [] [] +
       0.30 * calculate_experience_fit_score [] jr0.min_years_experience +
       0.15 * calculate_trajectory_fit_score trajectory0 jr0.experience_level +
       0.10 * (culture0.fit_score * 100) +
       0.10 * calculate_education_fit resume0 jr0)| ≤ 0.05 ∧
    ATSScorer.calculate_keyword_score [] [] ∈ Set.Icc (0:ℚ) 100 ∧
    ATSScorer.calculate_experience_score resume0 jd0 ∈ Set.Icc (0:ℚ) 100 ∧
    ATSScorer.calculate_skills_score resume0 [] ∈ Set.Icc (0:ℚ) 100 ∧
    ATSScorer.calculate_education_score resume0 jd0 ∈ Set.Icc (0:ℚ) 100 ∧
    ATSScorer.calculate_format_score resume0 ∈ Set.Icc (0:ℚ) 100 ∧
    calculate_skill_fit_score [] [] ∈ Set.Icc (0:ℚ) 100 ∧
    calculate_experience_fit_score [] jr0.min_years_experience ∈
      Set.Icc (0:ℚ) 100 ∧
    calculate_trajectory_fit_score trajectory0 jr0.experience_level ∈
      Set.Icc (0:ℚ) 100 ∧
    culture0.fit_score * 100 ∈ Set.Icc (0:ℚ) 100 ∧
    calculate_education_fit resume0 jr0 ∈ Set.Icc (0:ℚ) 100) :=
  ⟨by simp,
   scorer_overall_weighted_sum_components_bounded resume0 jd0 [] [] [] [] []
     trajectory0 culture0 jr0 (by simp) (by simp) (by simp)⟩

/-! ## C3 -/

/-- C3 counterexample: a `KeywordMatch` whose `match_type` is `MISSING`
but whose derived score is 0.2, not 0 (its stored `context_score` is 1,
so the formula yields `0·mult + 1·0.2 = 0.2`). -/
theorem keyword_match_missing_score_counterexample :
    m_missing_ctx.match_type = MatchType.missing ∧
    m_missing_ctx.score = 0.2 ∧ m_missing_ctx.score ≠ 0 := by
  refine ⟨rfl, ?_, ?_⟩ <;>
    norm_num [m_missing_ctx, KeywordMatch.score, MatchType.baseScore, kw0]

/-- C3 (amended): for every `KeywordMatch` with a nonnegative stored
context score, the derived score equals
`base(match_type) · min (1 + (frequency − 1)·0.1) 1.3 + 0.2·context`,
capped at 1; the score lies in [0, 1]; and it is 0 for missing matches
whose context score is 0 (which is how the matcher constructs them). -/
theorem keyword_match_score_formula_and_bounds (m : KeywordMatch)
    (h0 : 0 ≤ m.context_score) :
    m.score = min (m.match_type.baseScore *
        min (1 + ((m.frequency : ℚ) - 1) * 0.1) 1.3 +
        0.2 * m.context_score) 1 ∧
    0 ≤ m.score ∧ m.score ≤ 1 ∧
    (m.match_type = MatchType.missing → m.context_score = 0 → m.score = 0) := by
  have hbase : 0 ≤ m.match_type.baseScore := by
    cases m.match_type <;> norm_num [MatchType.baseScore]
  have hcast : (0:ℚ) ≤ (m.frequency : ℚ) := Nat.cast_nonneg _
  have hmult : (0:ℚ) ≤ min (1 + ((m.frequency : ℚ) - 1) * 0.1) 1.3 :=
    le_min (by linarith) (by norm_num)
  refine ⟨?_, ?_, ?_, ?_⟩
  · unfold KeywordMatch.score
    dsimp only
    rw [mul_comm (0.2:ℚ) m.context_score]
  · unfold KeywordMatch.score
    dsimp only
    exact le_min (add_nonneg (mul_nonneg hbase hmult)
      (mul_nonneg h0 (by norm_num))) (by norm_num)
  · unfold KeywordMatch.score
    dsimp only
    exact min_le_right _ _
  · intro h1 h2
    simp [KeywordMatch.score, h1, h2, MatchType.baseScore]

/-- Witness for C3 (amended) at the concrete match `m0`. -/
theorem keyword_match_score_formula_witness :
    m0.score = min (m0.match_type.baseScore *
        min (1 + ((m0.frequency : ℚ) - 1) * 0.1) 1.3 +
        0.2 * m0.context_score) 1 ∧
    0 ≤ m0.score ∧ m0.score ≤ 1 ∧
    (m0.match_type = MatchType.missing → m0.context_score = 0 → m0.score = 0) :=
  keyword_match_score_formula_and_bounds m0 (by norm_num [m0])

/-! ## C4 -/

/-- C4: the ATS keyword component equals the importance-weighted average
of per-match scores × 100, minus 5 per missing keyword of importance
≥ 0.8, clamped to [0, 100] (whenever the total importance weight is
nonzero); and it is 0 when the extracted keyword list is empty. -/
theorem keyword_component_clamped_weighted_average
    (matchList : List KeywordMatch) (keywords : List Keyword) :
    (keywords ≠ [] →
      (matchList.map fun m => m.keyword.importance).sum ≠ 0 →
      ATSScorer.calculate_keyword_score matchList keywords =
        max 0 (min 100
          ((matchList.map fun m => m.score * m.keyword.importance).sum /
            (matchList.map fun m => m.keyword.importance).sum * 100 -
            ((matchList.filter fun m =>
              m.match_type = MatchType.missing ∧
                m.keyword.importance ≥ 0.8).length : ℚ) * 5))) ∧
    (keywords = [] → ATSScorer.calculate_keyword_score matchList keywords = 0) := by
  constructor
  · intro h1 h2
    unfold ATSScorer.calculate_keyword_score
    rw [if_neg h1, if_neg h2]
  · intro h
    unfold ATSScorer.calculate_keyword_score
    rw [if_pos h]

/-- Witness for C4 at a one-keyword, one-match input. -/
theorem keyword_component_clamped_weighted_average_witness :
    ATSScorer.calculate_keyword_score [m0] [kw0] =
      max 0 (min 100
        (([m0].map fun m => m.score * m.keyword.importance).sum /
          ([m0].map fun m => m.keyword.importance).sum * 100 -
          (([m0].filter fun m =>
            m.match_type = MatchType.missing ∧
              m.keyword.importance ≥ 0.8).length : ℚ) * 5)) :=
  (keyword_component_clamped_weighted_average [m0] [kw0]).1
    (by simp) (by norm_num [m0, kw0])

/-! ## C9 -/

/-- C9: for every resume whose education list is empty, the ATS
education component is exactly 30 (in particular not 0), whatever the
job description. -/
theorem education_score_empty_is_30 (resume : ParsedResume)
    (jd : JobDescription) (h : resume.education = []) :
    ATSScorer.calculate_education_score resume jd = 30 ∧ (30:ℚ) ≠ 0 := by
  refine ⟨?_, by norm_num⟩
  unfold ATSScorer.calculate_education_score
  rw [if_pos h]

/-- Witness for C9 at the concrete empty resume. -/
theorem education_score_empty_is_30_witness :
    ATSScorer.calculate_education_score resume0 jd0 = 30 ∧ (30:ℚ) ≠ 0 :=
  education_score_empty_is_30 resume0 jd0 rfl

/-! ## LaTeX parser: balanced-brace helper
(`src/resume/latex_parser.py`, lines 83–112) -/

/-- The opening brace character. -/
def openB : Char := '\x7b'

/-- The closing brace character. -/
def closeB : Char := '\x7d'

/-- +1 for an opening brace, −1 for a closing brace, 0 otherwise. -/
def braceDelta (c : Char) : ℤ :=
  if c = openB then 1 else if c = closeB then -1 else 0

/-- Net brace depth change over a string. -/
def netB (cs : Text) : ℤ := (cs.map braceDelta).sum

@[simp] theorem netB_nil : netB [] = 0 := rfl

@[simp] theorem netB_cons (c : Char) (l : Text) :
    netB (c :: l) = braceDelta c + netB l := by simp [netB]

/-- Python slice `text[a:b]`. -/
def sliceT (text : Text) (a b : ℕ) : Text := (text.drop a).take (b - a)

/-- The scanning loop of `_extract_balanced_braces`: starting with brace
counter `n`, return the offset of the character at which the counter
first returns to zero (necessarily a `}`), or `none` if it never does.
The Python loop increments at `{`, decrements at `}`, and returns the
current index when the counter hits zero after a decrement. -/
def findClose : Text → ℤ → Option ℕ
  | [], _ => none
  | c :: rest, n =>
    if c = openB then (findClose rest (n + 1)).map (· + 1)
    else if c = closeB then
      if n - 1 = 0 then some 0
      else (findClose rest (n - 1)).map (· + 1)
    else (findClose rest n).map (· + 1)

/-- `LaTeXResumeParser._extract_balanced_braces`: returns the content
within balanced braces starting at `startPos` together with the end
position.  (Python also accepts negative positions, which index from the
end of the string; positions are modelled as naturals here.) -/
def extract_balanced_braces (text : Text) (startPos : ℕ) : Text × ℕ :=
  if startPos < text.length ∧ text.getD startPos ' ' = openB then
    match findClose (text.drop startPos) 0 with
    | some r => (sliceT text (startPos + 1) (startPos + r), startPos + r)
    | none => (text.drop (startPos + 1), text.length)
  else ([], startPos)

/-- `j` is the matching closing brace for the opening brace at `p`:
the first position after `p` at which the net brace depth of
`text[p..j]` returns to zero. -/
def isMatchingClose (text : Text) (p j : ℕ) : Prop :=
  p < j ∧ j < text.length ∧ netB (sliceT text p (j + 1)) = 0 ∧
    ∀ k, p < k → k < j → netB (sliceT text p (k + 1)) ≠ 0

@[simp] theorem braceDelta_openB : braceDelta openB = 1 := by
  simp [braceDelta]

@[simp] theorem braceDelta_closeB : braceDelta closeB = -1 := by
  have h : closeB ≠ openB := by decide
  simp [braceDelta, h]

theorem findClose_lt_length :
    ∀ (cs : Text) (n : ℤ) (r : ℕ), findClose cs n = some r → r < cs.length := by
  intro cs
  induction cs with
  | nil => intro n r h; simp [findClose] at h
  | cons c rest ih =>
    intro n r h
    rw [findClose] at h
    split_ifs at h with h1 h2 h3
    · rcases Option.map_eq_some'.mp h with ⟨r', hr', rfl⟩
      have := ih _ _ hr'
      simp; omega
    · simp only [Option.some.injEq] at h
      subst h; simp
    · rcases Option.map_eq_some'.mp h with ⟨r', hr', rfl⟩
      have := ih _ _ hr'
      simp; omega
    · rcases Option.map_eq_some'.mp h with ⟨r', hr', rfl⟩
      have := ih _ _ hr'
      simp; omega

theorem findClose_some_spec :
    ∀ (cs : Text) (n : ℤ) (r : ℕ), 1 ≤ n → findClose cs n = some r →
      n + netB (cs.take (r + 1)) = 0 ∧
        ∀ k, k < r → n + netB (cs.take (k + 1)) ≠ 0 := by
  intro cs
  induction cs with
  | nil => intro n r hn h; simp [findClose] at h
  | cons c rest ih =>
    intro n r hn h
    rw [findClose] at h
    split_ifs at h with h1 h2 h3
    · rcases Option.map_eq_some'.mp h with ⟨r', hr', rfl⟩
      obtain ⟨ha, hb⟩ := ih (n + 1) r' (by linarith) hr'
      refine ⟨?_, ?_⟩
      · simp [List.take_succ_cons, h1]
        linarith
      · intro k hk
        match k with
        | 0 =>
          simp [List.take_succ_cons, h1]
          intro habs; linarith
        | (k' + 1) =>
          have := hb k' (by omega)
          simp only [List.take_succ_cons, netB_cons, h1, braceDelta_openB]
          intro habs; exact this (by linarith)
    · simp only [Option.some.injEq] at h
      subst h
      refine ⟨?_, ?_⟩
      · simp [List.take_succ_cons, h2]
        linarith
      · intro k hk; omega
    · rcases Option.map_eq_some'.mp h with ⟨r', hr', rfl⟩
      have hn2 : (2:ℤ) ≤ n := by
        rcases lt_or_ge n 2 with hlt | hge
        · exfalso; apply h3; omega
        · exact hge
      obtain ⟨ha, hb⟩ := ih (n - 1) r' (by linarith) hr'
      refine ⟨?_, ?_⟩
      · simp [List.take_succ_cons, h2]
        linarith
      · intro k hk
        match k with
        | 0 =>
          simp [List.take_succ_cons, h2]
          intro habs; linarith
        | (k' + 1) =>
          have := hb k' (by omega)
          simp only [List.take_succ_cons, netB_cons, h2, braceDelta_closeB]
          intro habs; exact this (by linarith)
    · rcases Option.map_eq_some'.mp h with ⟨r', hr', rfl⟩
      obtain ⟨ha, hb⟩ := ih n r' hn hr'
      have hd : braceDelta c = 0 := by simp [braceDelta, h1, h2]
      refine ⟨?_, ?_⟩
      · simp [List.take_succ_cons, hd]
        linarith
      · intro k hk
        match k with
        | 0 =>
          simp [List.take_succ_cons, hd]
          intro habs; linarith
        | (k' + 1) =>
          have := hb k' (by omega)
          simp only [List.take_succ_cons, netB_cons, hd]
          intro habs; exact this (by linarith)

theorem findClose_none_spec :
    ∀ (cs : Text) (n : ℤ), 1 ≤ n → findClose cs n = none →
      ∀ r, n + netB (cs.take (r + 1)) ≠ 0 := by
  intro cs
  induction cs with
  | nil => intro n hn _ r; simp; omega
  | cons c rest ih =>
    intro n hn h r
    rw [findClose] at h
    split_ifs at h with h1 h2 h3
    · have hrest := ih (n + 1) (by linarith) (Option.map_eq_none'.mp h)
      match r with
      | 0 =>
        simp [List.take_succ_cons, h1]
        intro habs; linarith
      | (r' + 1) =>
        have := hrest r'
        simp only [List.take_succ_cons, netB_cons, h1, braceDelta_openB]
        intro habs; exact this (by linarith)
    · have hn2 : (2:ℤ) ≤ n := by
        rcases lt_or_ge n 2 with hlt | hge
        · exfalso; apply h3; omega
        · exact hge
      have hrest := ih (n - 1) (by linarith) (Option.map_eq_none'.mp h)
      match r with
      | 0 =>
        simp [List.take_succ_cons, h2]
        intro habs; linarith
      | (r' + 1) =>
        have := hrest r'
        simp only [List.take_succ_cons, netB_cons, h2, braceDelta_closeB]
        intro habs; exact this (by linarith)
    · have hrest := ih n hn (Option.map_eq_none'.mp h)
      have hd : braceDelta c = 0 := by simp [braceDelta, h1, h2]
      match r with
      | 0 =>
        simp [List.take_succ_cons, hd]
        intro habs; linarith
      | (r' + 1) =>
        have := hrest r'
        simp only [List.take_succ_cons, netB_cons, hd]
        intro habs; exact this (by linarith)

theorem isMatchingClose_unique (text : Text) (p j j' : ℕ)
    (h : isMatchingClose text p j) (h' : isMatchingClose text p j') : j = j' := by
  by_contra hne
  rcases lt_or_gt_of_ne hne with hlt | hgt
  · exact h'.2.2.2 j h.1 hlt h.2.2.1
  · exact h.2.2.2 j' h'.1 hgt h'.2.2.1

/-- C6: the balanced-brace helper is total; at an opening brace with a
matching close at depth zero at index `j` it returns the substring
strictly between them with end position `j`; with unbalanced braces it
returns everything after the opening brace with end position
`len(text)`; at an out-of-range or non-brace start position it returns
the empty string with the position unchanged. -/
theorem extract_balanced_braces_spec (text : Text) (p : ℕ) :
    (¬(p < text.length ∧ text.getD p ' ' = openB) →
      extract_balanced_braces text p = ([], p)) ∧
    (p < text.length → text.getD p ' ' = openB →
      (∀ j, isMatchingClose text p j →
        extract_balanced_braces text p = (sliceT text (p + 1) j, j)) ∧
      ((¬∃ j, isMatchingClose text p j) →
        extract_balanced_braces text p = (text.drop (p + 1), text.length))) := by
  constructor
  · intro h
    unfold extract_balanced_braces
    rw [if_neg h]
  · intro hp hb
    have hdrop : text.drop p = openB :: text.drop (p + 1) := by
      rw [List.drop_eq_getElem_cons hp]
      rw [← List.getD_eq_getElem text ' ' hp, hb]
    have hstep : findClose (text.drop p) 0 =
        (findClose (text.drop (p + 1)) 1).map (· + 1) := by
      rw [hdrop, findClose]
      norm_num
    set cs := text.drop (p + 1) with hcs
    have hcslen : cs.length = text.length - (p + 1) := by
      rw [hcs, List.length_drop]
    have hslice : ∀ m : ℕ, sliceT text p (p + m + 1) = openB :: cs.take m := by
      intro m
      have harith : p + m + 1 - p = m + 1 := by omega
      rw [sliceT, harith, hdrop, List.take_succ_cons]
    have hmk : ∀ r', findClose cs 1 = some r' →
        isMatchingClose text p (p + 1 + r') := by
      intro r' e
      have hsome := findClose_some_spec cs 1 r' (by norm_num) e
      have hrlen := findClose_lt_length cs 1 r' e
      refine ⟨by omega, by omega, ?_, ?_⟩
      · have harith : p + 1 + r' + 1 = p + (r' + 1) + 1 := by omega
        rw [harith, hslice]
        rw [netB_cons, braceDelta_openB]
        linarith [hsome.1]
      · intro k hk1 hk2
        have harith : k + 1 = p + (k - p - 1 + 1) + 1 := by omega
        rw [harith, hslice]
        rw [netB_cons, braceDelta_openB]
        have := hsome.2 (k - p - 1) (by omega)
        intro habs
        exact this (by linarith)
    constructor
    · intro j hj
      rcases e : findClose cs 1 with _ | r'
      · exfalso
        have hnone := findClose_none_spec cs 1 (by norm_num) e
        have hjp : p < j := hj.1
        have harith : j + 1 = p + (j - p - 1 + 1) + 1 := by omega
        have h0 := hj.2.2.1
        rw [harith, hslice, netB_cons, braceDelta_openB] at h0
        exact hnone (j - p - 1) (by linarith)
      · have hjj : j = p + 1 + r' :=
          isMatchingClose_unique text p j _ hj (hmk r' e)
        unfold extract_balanced_braces
        rw [if_pos ⟨hp, hb⟩, hstep, e]
        simp only [Option.map_some']
        have harith : p + (r' + 1) = p + 1 + r' := by omega
        rw [hjj, harith]
    · intro hnoj
      rcases e : findClose cs 1 with _ | r'
      · unfold extract_balanced_braces
        rw [if_pos ⟨hp, hb⟩, hstep, e]
        simp only [Option.map_none']
      · exact absurd ⟨p + 1 + r', hmk r' e⟩ hnoj

/-- Witness for C6's conditional clauses: for the concrete input
`"a{bc}d"` at position 1 the matching close is at index 4 and the helper
returns (`"bc"`, 4); at position 0 (not a brace) it returns the empty
string and position 0. -/
theorem extract_balanced_braces_spec_witness :
    extract_balanced_braces (txt "a\x7bbc\x7dd") 1 =
      (sliceT (txt "a\x7bbc\x7dd") 2 4, 4) ∧
    extract_balanced_braces (txt "a\x7bbc\x7dd") 0 = ([], 0) :=
  ⟨((extract_balanced_braces_spec (txt "a\x7bbc\x7dd") 1).2 (by decide)
      (by decide)).1 4
      (by
        refine ⟨by norm_num, by decide, by decide, ?_⟩
        intro k hk1 hk2
        interval_cases k <;> decide),
   (extract_balanced_braces_spec (txt "a\x7bbc\x7dd") 0).1 (by decide)⟩

/-! ## Bullet enhancer (`src/resume/ai/bullet_enhancer.py`) -/

/-- Python `str.split()`: accumulate the current word and emit maximal
whitespace-separated words. -/
def splitWordsAux : Text → Text → List Text
  | [], acc => if acc = [] then [] else [acc.reverse]
  | c :: rest, acc =>
    if c.isWhitespace then
      if acc = [] then splitWordsAux rest []
      else acc.reverse :: splitWordsAux rest []
    else splitWordsAux rest (c :: acc)

/-- Python `str.split()` with no separator argument. -/
def splitWords (t : Text) : List Text := splitWordsAux t []

/-- Python `str.strip(chars)`: drop characters of `cs` from both ends. -/
def stripChars (s : Text) (cs : List Char) : Text :=
  ((s.dropWhile (· ∈ cs)).reverse.dropWhile (· ∈ cs)).reverse

/-- Python `str.strip()` (whitespace). -/
def stripWS (s : Text) : Text :=
  ((s.dropWhile Char.isWhitespace).reverse.dropWhile Char.isWhitespace).reverse

/-- The scan for the closing `**` of the markdown-stripping regex
substitution in `_clean_bullet`: returns the lazily-minimal inner text
and the remainder after the closing marker; `.` does not match a
newline, so the search stops at a line break. -/
def findBoldClose : Text → Option (Text × Text)
  | [] => none
  | c :: rest =>
    if c = '\n' then none
    else if startsWithT (c :: rest) (txt "**") then some ([], rest.drop 1)
    else (findBoldClose rest).map fun p => (c :: p.1, p.2)

theorem findBoldClose_length :
    ∀ (cs : Text) (inner after : Text), findBoldClose cs = some (inner, after) →
      after.length < cs.length := by
  intro cs
  induction cs with
  | nil => intro inner after h; simp [findBoldClose] at h
  | cons c rest ih =>
    intro inner after h
    rw [findBoldClose] at h
    split_ifs at h with h1 h2
    · simp only [Option.some.injEq, Prod.mk.injEq] at h
      rcases h with ⟨_, rfl⟩
      have := List.length_drop 1 rest
      simp
      omega
    · rcases Option.map_eq_some'.mp h with ⟨⟨i', a'⟩, hr', hh⟩
      simp only [Prod.mk.injEq] at hh
      have hlen := ih i' a' hr'
      have hafter : after = a' := hh.2.symm
      subst hafter
      simp
      omega

/-- The markdown-stripping substitution
`re.sub(r'\*\*(.*?)\*\*', r'\1', text)` in `_clean_bullet`: each
non-overlapping `**…**` pair (lazy inner, no newline inside) is replaced
by its inner text; an unpaired `**` is kept and scanning resumes one
character further, as the regex engine does.  The fuel argument (the
input length suffices, since every step consumes at least one
character) keeps the recursion structural. -/
def removeBoldAux : ℕ → Text → Text
  | 0, cs => cs
  | _ + 1, [] => []
  | fuel + 1, c :: rest =>
    if startsWithT (c :: rest) (txt "**") then
      match findBoldClose (rest.drop 1) with
      | some (inner, after) => inner ++ removeBoldAux fuel after
      | none => c :: removeBoldAux fuel rest
    else c :: removeBoldAux fuel rest

/-- The markdown-stripping pass, with enough fuel for the whole input. -/
def removeBold (cs : Text) : Text := removeBoldAux cs.length cs

/-- `BulletEnhancer._clean_bullet` (bullet_enhancer.py lines 143–157):
strip surrounding quotes, strip one leading bullet marker, strip
markdown bold, capitalize the leading character, strip whitespace. -/
def cleanBullet (text : Text) : Text :=
  let t1 := stripChars text ['"', '\'']
  let t2 :=
    match t1 with
    | c :: rest =>
      if c = '-' ∨ c = '*' ∨ c = '•' then rest.dropWhile Char.isWhitespace else t1
    | [] => t1
  let t3 := removeBold t2
  let t4 :=
    match t3 with
    | c :: rest => c.toUpper :: rest
    | [] => t3
  stripWS t4

/-- The token-overlap fraction of `_estimate_confidence`:
`len(orig_words ∩ enh_words) / len(orig_words)` over lower-cased word
sets, or 0 when the original has no words. -/
def tokenOverlap (original enhanced : Text) : ℚ :=
  let origWords := (splitWords (lowerText original)).dedup
  let enhWords := (splitWords (lowerText enhanced)).dedup
  if origWords ≠ [] then
    ((origWords.filter fun w => w ∈ enhWords).length : ℚ) / (origWords.length : ℚ)
  else 0

/-- `BulletEnhancer._estimate_confidence` (bullet_enhancer.py lines
207–234).  (Python reads `enhanced[0]`; that branch is unreachable with
an empty `enhanced`, which the earlier word-count or overlap branch
catches, so `headD` is safe here.) -/
def estimate_confidence (original enhanced : Text) : ℚ :=
  let origLen := (splitWords original).length
  let enhLen := (splitWords enhanced).length
  if (enhLen : ℚ) > (origLen : ℚ) * 2 ∨ (enhLen : ℚ) < (origLen : ℚ) * 0.5 then 0.5
  else if tokenOverlap original enhanced < 0.3 then 0.6
  else if ¬(enhanced.headD ' ').isUpper then 0.7
  else 0.9

/-- `BulletEnhancer._find_added_keywords` (lines 159–176). -/
def find_added_keywords (original enhanced : Text)
    (targetKeywords : List Text) : List Text :=
  targetKeywords.filter fun kw =>
    let kwLower := lowerText kw
    ¬containsSub (lowerText original) kwLower ∧
      containsSub (lowerText enhanced) kwLower

/-- The action-verb list of `_calculate_improvement`. -/
def improvementActionVerbs : List Text :=
  [txt "managed", txt "developed", txt "implemented", txt "optimized",
   txt "designed", txt "automated", txt "configured", txt "deployed"]

/-- `BulletEnhancer._calculate_improvement` (lines 178–205); the
quantification regex `\d+[\%\+]?` matches iff a digit occurs. -/
def calculate_improvement (_original enhanced : Text)
    (keywordsAdded : List Text) : ℚ :=
  let s1 : ℚ := if keywordsAdded ≠ [] then
      min ((keywordsAdded.length : ℚ) * 0.15) 0.5 else 0
  let s2 : ℚ := if enhanced.any Char.isDigit then 0.3 else 0
  let s3 : ℚ := if improvementActionVerbs.any
      (fun v => containsSub (lowerText enhanced) v) then 0.2 else 0
  min (s1 + s2 + s3) 1

/-- `BulletEnhancement` dataclass (`resume/ai/models.py`). -/
structure BulletEnhancement where
  original_text : Text
  enhanced_text : Text
  keywords_added : List Text
  improvement_score : ℚ
  confidence : ℚ
  deriving DecidableEq, Repr

/-- `BulletEnhancer.enhance_bullet` (lines 32–98).  The external
generative service is modelled by its availability flag and its
`Optional[str]` response; a `None` or empty response aborts, otherwise
the cleaned rewrite is accepted only when its estimated confidence
reaches `minConfidence` (constructor default 0.7). -/
def enhance_bullet (available : Bool) (serviceResponse : Option Text)
    (bulletText : Text) (missingKeywords : List Text)
    (minConfidence : ℚ) : Option BulletEnhancement :=
  if available then
    match serviceResponse with
    | none => none
    | some enhancedRaw =>
      if enhancedRaw = [] then none
      else
        let enhanced := cleanBullet enhancedRaw
        let keywordsAdded := find_added_keywords bulletText enhanced missingKeywords
        let improvement := calculate_improvement bulletText enhanced keywordsAdded
        let confidence := estimate_confidence bulletText enhanced
        if confidence < minConfidence then none
        else some { original_text := bulletText, enhanced_text := enhanced,
                    keywords_added := keywordsAdded,
                    improvement_score := improvement, confidence := confidence }
  else none

/-- The constructor default for `min_confidence`. -/
def defaultMinConfidence : ℚ := 0.7

/-- C7: the enhancer accepts a rewrite only when its estimated
confidence reaches the threshold (constructor default
`defaultMinConfidence = 0.7`): an accepted enhancement carries
confidence ≥ threshold, a below-threshold rewrite makes `enhance_bullet`
return `none` (so the bullet keeps its original text), and the
confidence estimate is 0.5 on a drastic word-count change, else 0.6 on
token overlap below 0.3, else 0.7 on a non-uppercase leading character,
else 0.9. -/
theorem enhance_bullet_confidence_gate (available : Bool)
    (serviceResponse : Option Text) (bulletText : Text)
    (missingKeywords : List Text) (minConfidence : ℚ) :
    (∀ e, enhance_bullet available serviceResponse bulletText missingKeywords
        minConfidence = some e →
      minConfidence ≤ e.confidence ∧
        e.confidence = estimate_confidence bulletText e.enhanced_text) ∧
    (∀ t, serviceResponse = some t → t ≠ [] →
      estimate_confidence bulletText (cleanBullet t) < minConfidence →
      enhance_bullet available serviceResponse bulletText missingKeywords
        minConfidence = none) ∧
    (∀ orig enh, estimate_confidence orig enh =
      if ((splitWords enh).length : ℚ) > ((splitWords orig).length : ℚ) * 2 ∨
          ((splitWords enh).length : ℚ) < ((splitWords orig).length : ℚ) * 0.5
      then 0.5
      else if tokenOverlap orig enh < 0.3 then 0.6
      else if ¬(enh.headD ' ').isUpper then 0.7
      else 0.9) := by
  refine ⟨?_, ?_, fun orig enh => rfl⟩
  · intro e h
    unfold enhance_bullet at h
    cases available with
    | false => simp at h
    | true =>
      rcases serviceResponse with _ | t
      · simp at h
      · simp only [if_true] at h
        split_ifs at h with h1 h2
        cases h
        exact ⟨not_lt.mp h2, rfl⟩
  · intro t hresp hne hconf
    subst hresp
    unfold enhance_bullet
    cases available with
    | false => simp
    | true =>
      simp only [if_true]
      rw [if_neg hne, if_pos hconf]

/-- Witness for C7: a one-word rewrite of a five-word bullet estimates
confidence 0.5 < 0.7 and is rejected. -/
theorem enhance_bullet_confidence_gate_witness :
    enhance_bullet true (some (txt "x")) (txt "managed the cluster for years")
      [] defaultMinConfidence = none := by
  refine (enhance_bullet_confidence_gate true (some (txt "x"))
      (txt "managed the cluster for years") [] defaultMinConfidence).2.1
    (txt "x") rfl (by decide) ?_
  have h1 : (splitWords (txt "managed the cluster for years")).length = 5 := by
    decide
  have h2 : (splitWords (cleanBullet (txt "x"))).length = 1 := by decide
  unfold estimate_confidence
  dsimp only
  rw [h1, h2]
  norm_num [defaultMinConfidence]

/-! ## Task orchestration on failure (`src/dashboard/api/generate.py`) -/

/-- The task-progress record kept in the module-level
`generation_status` map (the fields the failure handler touches). -/
structure TaskRecord where
  status : String
  progress : ℕ
  message : String
  error : Option String := none
  deriving DecidableEq, Repr

instance : Inhabited TaskRecord :=
  ⟨{ status := "", progress := 0, message := "" }⟩

/-- The successive states written by the `try` block of
`generate_variant_task` (generate.py lines 34–182): the initial insert,
the four checkpoint updates, and the completion update. -/
def tryStates : List TaskRecord :=
  [{ status := "running", progress := 0, message := "Starting generation..." },
   { status := "running", progress := 10, message := "Parsing resume..." },
   { status := "running", progress := 20, message := "Extracting keywords..." },
   { status := "running", progress := 40, message := "Selecting bullets..." },
   { status := "running", progress := 80, message := "Saving to database..." },
   { status := "completed", progress := 100,
     message := "Generation completed successfully!" }]

/-- The `except` handler of `generate_variant_task` (lines 184–193): it
merges status `failed`, progress 0, an error message and the error text
into the current record. -/
def failUpdate (r : TaskRecord) (err : String) : TaskRecord :=
  { r with status := "failed", progress := 0,
           message := "Error: " ++ err, error := some err }

/-- `generate_variant_task`, abstracted over where the pipeline raises:
`failAfter = some i` means the exception fires after the `i`-th write of
the `try` block (1 ≤ i ≤ 6), `none` means the task completes. -/
def runGenerateTask (failAfter : Option ℕ) (err : String) : TaskRecord :=
  match failAfter with
  | none => tryStates.getD 5 (failUpdate (tryStates.getD 0 default) err)
  | some i => failUpdate (tryStates.getD (i - 1) (tryStates.getD 0 default)) err

/-- C5 counterexample: a pipeline that fails right after the
40-percent checkpoint (the fourth write) ends failed with error text,
but its percent is 0, not the checkpointed 40. -/
theorem generate_task_failure_resets_progress_counterexample :
    (tryStates.getD 3 default).progress = 40 ∧
    (runGenerateTask (some 4) "boom").status = "failed" ∧
    (runGenerateTask (some 4) "boom").error = some "boom" ∧
    (runGenerateTask (some 4) "boom").progress = 0 ∧
    (runGenerateTask (some 4) "boom").progress ≠
      (tryStates.getD 3 default).progress := by
  refine ⟨rfl, rfl, rfl, rfl, by decide⟩

/-- C5 (amended): whenever the pipeline fails — at any write of the
`try` block — the task record transitions to `failed` and carries the
error text, but its percent is reset to 0 rather than left at the last
checkpoint. -/
theorem generate_task_failure_state (i : ℕ) (err : String) :
    (runGenerateTask (some i) err).status = "failed" ∧
    (runGenerateTask (some i) err).error = some err ∧
    (runGenerateTask (some i) err).progress = 0 := by
  unfold runGenerateTask failUpdate
  exact ⟨rfl, rfl, rfl⟩

/-! ## Keyword extractor (`src/resume/ats/keyword_extractor.py`) -/

/-- The `SYNONYMS` table. -/
def SYNONYMS : List (Text × List Text) :=
  [(txt "kafka", [txt "apache kafka", txt "confluent kafka", txt "kafka streams"]),
   (txt "kubernetes", [txt "k8s", txt "container orchestration"]),
   (txt "ci/cd", [txt "continuous integration", txt "continuous deployment",
                  txt "jenkins", txt "gitlab ci"]),
   (txt "monitoring", [txt "observability", txt "telemetry", txt "alerting",
                       txt "grafana", txt "prometheus"]),
   (txt "scripting", [txt "automation", txt "bash", txt "shell",
                      txt "python scripting"]),
   (txt "cloud", [txt "aws", txt "azure", txt "gcp", txt "cloud computing"])]

/-- `self.SYNONYMS.get(skill, [])`. -/
def synonymsFor (s : Text) : List Text := (SYNONYMS.lookup s).getD []

/-- The `CERTIFICATIONS` table. -/
def CERTIFICATIONS : List Text :=
  [txt "aws certified", txt "azure certified", txt "cka", txt "ckad",
   txt "confluent certified", txt "kafka certification",
   txt "terraform certified", txt "ansible certified"]

/-- Python `str.title()`: uppercase each letter that does not follow a
letter, lowercase the others. -/
def titleCaseAux : Text → Bool → Text
  | [], _ => []
  | c :: rest, prevAlpha =>
    (if prevAlpha then c.toLower else c.toUpper) :: titleCaseAux rest c.isAlpha

/-- Python `str.title()`. -/
def titleCase (t : Text) : Text := titleCaseAux t false

/-- The outcome of one regex hit of `TECH_PATTERNS` on the job
description, carrying the context facts `_calculate_importance` reads
(requirements-section hit, first-500-characters hit, nearby emphasis
word, occurrence count).  The regex engine itself is external. -/
structure PatternHit where
  skill : Text
  inRequirements : Bool
  inFirst500 : Bool
  emphasisNearby : Bool
  frequency : ℕ
  deriving DecidableEq, Repr

/-- `KeywordExtractor._calculate_importance` (keyword_extractor.py lines
274–307): base 0.5, +0.3 in a requirements section, +0.2 in the first
500 characters, +0.2 near an emphasis word, +0.1 per occurrence capped
at +0.3; final cap 1.0. -/
def calculate_importance (inRequirements inFirst500 emphasisNearby : Bool)
    (frequency : ℕ) : ℚ :=
  let i1 : ℚ := 0.5
  let i2 := i1 + (if inRequirements then 0.3 else 0)
  let i3 := i2 + (if inFirst500 then 0.2 else 0)
  let i4 := i3 + (if emphasisNearby then 0.2 else 0)
  let i5 := i4 + min ((frequency : ℚ) * 0.1) 0.3
  min i5 1

/-- `KeywordExtractor._extract_technical_skills` (lines 125–150), over
the abstract regex hits. -/
def extract_technical_skills (hits : List PatternHit) : List Keyword :=
  hits.map fun h =>
    { text := h.skill, category := KeywordCategory.technical,
      importance := calculate_importance h.inRequirements h.inFirst500
        h.emphasisNearby h.frequency,
      synonyms := synonymsFor h.skill }

/-- `KeywordExtractor._extract_certifications` (lines 152–168): literal
substring search, fixed importance 0.9. -/
def extract_certifications (jdText : Text) : List Keyword :=
  (CERTIFICATIONS.filter fun c => containsSub (lowerText jdText) c).map fun c =>
    { text := titleCase c, category := KeywordCategory.certification,
      importance := 0.9, synonyms := [] }

/-- `KeywordExtractor._categorize_phrase` (lines 309–324). -/
def categorize_phrase (phrase : Text) : KeywordCategory :=
  let phraseLower := lowerText phrase
  if [txt "system", txt "cluster", txt "server", txt "data", txt "api",
      txt "infrastructure"].any (containsSub phraseLower) then
    KeywordCategory.technical
  else if [txt "experience", txt "years", txt "background",
           txt "expertise"].any (containsSub phraseLower) then
    KeywordCategory.experienceKw
  else KeywordCategory.domain

/-- `KeywordExtractor._extract_key_phrases` (lines 170–217), over the
top n-gram counts produced by the external tokenizer: only phrases with
frequency ≥ 2 are kept, with importance `min(count/5, 1.0)`. -/
def extract_key_phrases (topNgrams : List (Text × ℕ)) : List Keyword :=
  (topNgrams.filter fun p => p.2 ≥ 2).map fun p =>
    { text := p.1, category := categorize_phrase p.1,
      importance := min ((p.2 : ℚ) / 5) 1, synonyms := [] }

/-- `KeywordExtractor._extract_domain_terms` (lines 219–248), over the
names of the domain patterns that matched: fixed importance 0.8. -/
def extract_domain_terms (domainTerms : List Text) : List Keyword :=
  domainTerms.map fun t =>
    { text := t, category := KeywordCategory.domain,
      importance := 0.8, synonyms := [] }

/-- The `soft_skills` table of `_extract_soft_skills`. -/
def softSkillsTable : List Text :=
  [txt "collaboration", txt "communication", txt "leadership",
   txt "problem solving", txt "analytical", txt "troubleshooting",
   txt "teamwork", txt "mentoring", txt "documentation", txt "agile",
   txt "scrum"]

/-- `KeywordExtractor._extract_soft_skills` (lines 250–272): literal
substring search, fixed importance 0.5. -/
def extract_soft_skills (jdText : Text) : List Keyword :=
  (softSkillsTable.filter fun s => containsSub (lowerText jdText) s).map fun s =>
    { text := titleCase s, category := KeywordCategory.softSkill,
      importance := 0.5, synonyms := [] }

/-- The `category_priority` table of `_deduplicate_and_rank`. -/
def categoryPriority : KeywordCategory → ℕ
  | .required => 5
  | .technical => 4
  | .certification => 4
  | .domain => 3
  | .tool => 3
  | .experienceKw => 2
  | .softSkill => 1

/-- The dedup step: fold each keyword into an association list keyed by
`kw.text.lower().strip()`, keeping the strictly higher importance. -/
def updateKey : List (Text × Keyword) → Text → Keyword → List (Text × Keyword)
  | [], key, kw => [(key, kw)]
  | (k, v) :: rest, key, kw =>
    if k = key then
      (if kw.importance > v.importance then (k, kw) else (k, v)) :: rest
    else (k, v) :: updateKey rest key kw

/-- Strict descending comparison on `(category priority, importance)`. -/
def rankGT (a b : Keyword) : Prop :=
  categoryPriority a.category > categoryPriority b.category ∨
    (categoryPriority a.category = categoryPriority b.category ∧
      a.importance > b.importance)

instance (a b : Keyword) : Decidable (rankGT a b) := by
  unfold rankGT; infer_instance

/-- Stable descending insertion, modelling Python's stable
`sorted(..., reverse=True)`: a new element goes before the first element
that does not strictly outrank it. -/
def insertDesc (kw : Keyword) : List Keyword → List Keyword
  | [] => [kw]
  | x :: xs => if rankGT x kw then x :: insertDesc kw xs else kw :: x :: xs

/-- Stable descending sort by `(category priority, importance)`. -/
def sortDesc : List Keyword → List Keyword
  | [] => []
  | x :: xs => insertDesc x (sortDesc xs)

/-- `KeywordExtractor._deduplicate_and_rank` (lines 326–364). -/
def dedupAndRank (keywords : List Keyword) (topN : ℕ) : List Keyword :=
  let uniq := (keywords.foldl
    (fun acc kw => updateKey acc (stripWS (lowerText kw.text)) kw) []).map Prod.snd
  (sortDesc uniq).take topN

/-- `KeywordExtractor.extract_keywords` (lines 80–123): the five stages
concatenated, then deduplicated and ranked.  The regex hits for
technical skills and the sentence-tokenized n-gram counts come from the
external libraries and are passed in. -/
def extract_keywords (jdText : Text) (techHits : List PatternHit)
    (topNgrams : List (Text × ℕ)) (domainTerms : List Text)
    (topN : ℕ) : List Keyword :=
  dedupAndRank
    (extract_technical_skills techHits ++
     extract_certifications jdText ++
     extract_key_phrases topNgrams ++
     extract_domain_terms domainTerms ++
     extract_soft_skills jdText) topN

theorem mem_insertDesc {kw x : Keyword} :
    ∀ {l : List Keyword}, x ∈ insertDesc kw l → x = kw ∨ x ∈ l := by
  intro l
  induction l with
  | nil => intro h; simp [insertDesc] at h; exact Or.inl h
  | cons y ys ih =>
    intro h
    rw [insertDesc] at h
    split_ifs at h
    · rcases List.mem_cons.mp h with h1 | h2
      · exact Or.inr (List.mem_cons.mpr (Or.inl h1))
      · rcases ih h2 with h3 | h4
        · exact Or.inl h3
        · exact Or.inr (List.mem_cons.mpr (Or.inr h4))
    · rcases List.mem_cons.mp h with h1 | h2
      · exact Or.inl h1
      · exact Or.inr h2

theorem mem_sortDesc {x : Keyword} :
    ∀ {l : List Keyword}, x ∈ sortDesc l → x ∈ l := by
  intro l
  induction l with
  | nil => intro h; simp [sortDesc] at h
  | cons y ys ih =>
    intro h
    rw [sortDesc] at h
    rcases mem_insertDesc h with h1 | h2
    · exact List.mem_cons.mpr (Or.inl h1)
    · exact List.mem_cons.mpr (Or.inr (ih h2))

theorem mem_updateKey_values :
    ∀ (acc : List (Text × Keyword)) (key : Text) (kw v : Keyword),
      v ∈ (updateKey acc key kw).map Prod.snd →
      v ∈ acc.map Prod.snd ∨ v = kw := by
  intro acc
  induction acc with
  | nil =>
    intro key kw v h
    simp [updateKey] at h
    exact Or.inr h
  | cons p rest ih =>
    intro key kw v h
    obtain ⟨k, w⟩ := p
    rw [updateKey] at h
    split_ifs at h with h1 h2
    · rcases List.mem_map.mp h with ⟨q, hq, rfl⟩
      rcases List.mem_cons.mp hq with h3 | h4
      · subst h3; exact Or.inr rfl
      · exact Or.inl (List.mem_map.mpr ⟨q, List.mem_cons.mpr (Or.inr h4), rfl⟩)
    · rcases List.mem_map.mp h with ⟨q, hq, rfl⟩
      rcases List.mem_cons.mp hq with h3 | h4
      · subst h3
        exact Or.inl (List.mem_map.mpr ⟨(k, w), List.mem_cons.mpr (Or.inl rfl), rfl⟩)
      · exact Or.inl (List.mem_map.mpr ⟨q, List.mem_cons.mpr (Or.inr h4), rfl⟩)
    · rcases List.mem_map.mp h with ⟨q, hq, rfl⟩
      rcases List.mem_cons.mp hq with h3 | h4
      · subst h3
        exact Or.inl (List.mem_map.mpr ⟨(k, w), List.mem_cons.mpr (Or.inl rfl), rfl⟩)
      · rcases ih key kw q.2 (List.mem_map.mpr ⟨q, h4, rfl⟩) with h5 | h6
        · rcases List.mem_map.mp h5 with ⟨q', hq', hq2⟩
          exact Or.inl (List.mem_map.mpr ⟨q', List.mem_cons.mpr (Or.inr hq'), hq2⟩)
        · exact Or.inr h6

theorem mem_dedup_values :
    ∀ (kws : List Keyword) (acc : List (Text × Keyword)) (v : Keyword),
      v ∈ ((kws.foldl
        (fun a k => updateKey a (stripWS (lowerText k.text)) k) acc).map Prod.snd) →
      v ∈ acc.map Prod.snd ∨ v ∈ kws := by
  intro kws
  induction kws with
  | nil => intro acc v h; exact Or.inl h
  | cons k rest ih =>
    intro acc v h
    rw [List.foldl_cons] at h
    rcases ih _ v h with h1 | h2
    · rcases mem_updateKey_values _ _ _ _ h1 with h3 | h4
      · exact Or.inl h3
      · exact Or.inr (List.mem_cons.mpr (Or.inl h4))
    · exact Or.inr (List.mem_cons.mpr (Or.inr h2))

theorem calculate_importance_mem (inRequirements inFirst500 emphasisNearby : Bool)
    (frequency : ℕ) :
    calculate_importance inRequirements inFirst500 emphasisNearby frequency ∈
      Set.Icc (0.5:ℚ) 1 := by
  unfold calculate_importance
  rw [Set.mem_Icc]
  try dsimp only
  have h : (0:ℚ) ≤ min ((frequency : ℚ) * 0.1) 0.3 :=
    le_min (by positivity) (by norm_num)
  constructor
  · refine le_min ?_ (by norm_num)
    split_ifs <;> linarith
  · exact min_le_right _ _

/-- C10: every keyword returned by the extractor has importance in
[0.4, 1.0] — technical keywords score in [0.5, 1.0] from the base-0.5
formula, certifications are fixed at 0.9, domain terms at 0.8, soft
skills at 0.5, and n-gram phrases (frequency ≥ 2 required) get
`min(count/5, 1.0) ≥ 0.4`; dedup-and-rank only selects among these. -/
theorem extract_keywords_importance_in_range (jdText : Text)
    (techHits : List PatternHit) (topNgrams : List (Text × ℕ))
    (domainTerms : List Text) (topN : ℕ) :
    (∀ kw ∈ extract_technical_skills techHits,
        0.5 ≤ kw.importance ∧ kw.importance ≤ 1) ∧
    (∀ kw ∈ extract_certifications jdText, kw.importance = 0.9) ∧
    (∀ kw ∈ extract_key_phrases topNgrams,
        0.4 ≤ kw.importance ∧ kw.importance ≤ 1) ∧
    (∀ kw ∈ extract_domain_terms domainTerms, kw.importance = 0.8) ∧
    (∀ kw ∈ extract_soft_skills jdText, kw.importance = 0.5) ∧
    (∀ kw ∈ extract_keywords jdText techHits topNgrams domainTerms topN,
        0.4 ≤ kw.importance ∧ kw.importance ≤ 1) := by
  have htech : ∀ kw ∈ extract_technical_skills techHits,
      0.5 ≤ kw.importance ∧ kw.importance ≤ 1 := by
    intro kw hm
    rcases List.mem_map.mp hm with ⟨h, _, rfl⟩
    have hmem := calculate_importance_mem h.inRequirements h.inFirst500
      h.emphasisNearby h.frequency
    rw [Set.mem_Icc] at hmem
    exact hmem
  have hcert : ∀ kw ∈ extract_certifications jdText, kw.importance = 0.9 := by
    intro kw hm
    rcases List.mem_map.mp hm with ⟨c, _, rfl⟩
    rfl
  have hphr : ∀ kw ∈ extract_key_phrases topNgrams,
      0.4 ≤ kw.importance ∧ kw.importance ≤ 1 := by
    intro kw hm
    rcases List.mem_map.mp hm with ⟨p, hp, rfl⟩
    have h2 : 2 ≤ p.2 := of_decide_eq_true (List.mem_filter.mp hp).2
    have h2q : (2:ℚ) ≤ (p.2 : ℚ) := by exact_mod_cast h2
    constructor
    · refine le_min ?_ (by norm_num)
      rw [le_div_iff₀ (by norm_num : (0:ℚ) < 5)]
      linarith
    · exact min_le_right _ _
  have hdom : ∀ kw ∈ extract_domain_terms domainTerms, kw.importance = 0.8 := by
    intro kw hm
    rcases List.mem_map.mp hm with ⟨t, _, rfl⟩
    rfl
  have hsoft : ∀ kw ∈ extract_soft_skills jdText, kw.importance = 0.5 := by
    intro kw hm
    rcases List.mem_map.mp hm with ⟨s, _, rfl⟩
    rfl
  refine ⟨htech, hcert, hphr, hdom, hsoft, ?_⟩
  intro kw hm
  unfold extract_keywords dedupAndRank at hm
  dsimp only at hm
  have hm2 := List.take_subset _ _ hm
  have hm3 := mem_sortDesc hm2
  rcases mem_dedup_values _ _ _ hm3 with h0 | h1
  · simp at h0
  · rcases List.mem_append.mp h1 with hA | hrest
    rcases List.mem_append.mp hA with hA1 | hrest1
    rcases List.mem_append.mp hA1 with hA2 | hrest2
    rcases List.mem_append.mp hA2 with hA3 | hrest3
    · have := htech kw hA3
      exact ⟨by linarith [this.1], this.2⟩
    · rw [hcert kw hrest3]; norm_num
    · exact hphr kw hrest2
    · rw [hdom kw hrest1]; norm_num
    · rw [hsoft kw hrest]; norm_num

/-- A sample technical-pattern hit for the witness. -/
def techHit0 : PatternHit :=
  { skill := txt "kafka", inRequirements := true, inFirst500 := true,
    emphasisNearby := false, frequency := 2 }

/-- The keyword produced from `techHit0`. -/
def techKeyword0 : Keyword :=
  { text := txt "kafka", category := KeywordCategory.technical,
    importance := calculate_importance true true false 2,
    synonyms := synonymsFor (txt "kafka") }

/-- Witness for C10: a concrete extraction run containing one technical
keyword, whose importance is within [0.4, 1.0]. -/
theorem extract_keywords_importance_in_range_witness :
    0.4 ≤ techKeyword0.importance ∧ techKeyword0.importance ≤ 1 := by
  refine (extract_keywords_importance_in_range [] [techHit0] [] [] 50).2.2.2.2.2
    techKeyword0 ?_
  have h : extract_keywords [] [techHit0] [] [] 50 = [techKeyword0] := rfl
  rw [h]
  exact List.mem_singleton.mpr rfl

/-! ## Comparator (`src/resume/tailoring/comparator_fixed.py`) -/

/-- The matched-element count of `difflib.SequenceMatcher`, modelled as
the longest-common-subsequence length (when the two inputs are equal
both notions equal the input length, which is the only case the
reflexivity property needs; the equal-heads shortcut is optimal for
LCS). -/
def lcsLen : Text → Text → ℕ
  | [], _ => 0
  | _ :: _, [] => 0
  | a :: as2, b :: bs2 =>
    if a = b then 1 + lcsLen as2 bs2
    else max (lcsLen (a :: as2) bs2) (lcsLen as2 (b :: bs2))
termination_by x y => x.length + y.length
decreasing_by all_goals (simp only [List.length_cons]; omega)

/-- `ResumeComparator._text_similarity` (comparator_fixed.py lines
343–345), i.e. `SequenceMatcher(None, a, b).ratio() = 2·M/(|a|+|b|)`;
difflib returns 1.0 when both inputs are empty. -/
def textSimilarity (a b : Text) : ℚ :=
  if a.length + b.length = 0 then 1
  else 2 * (lcsLen a b : ℚ) / ((a.length : ℚ) + (b.length : ℚ))

theorem lcsLen_self : ∀ a : Text, lcsLen a a = a.length := by
  intro a
  induction a with
  | nil => simp [lcsLen]
  | cons c rest ih =>
    rw [lcsLen]
    simp [ih]
    omega

theorem textSimilarity_self (a : Text) : textSimilarity a a = 1 := by
  unfold textSimilarity
  split_ifs with h
  · rfl
  · have hl : 0 < a.length := by omega
    have hq : (0:ℚ) < (a.length : ℚ) := by exact_mod_cast hl
    rw [lcsLen_self]
    rw [div_eq_one_iff_eq (by linarith)]
    ring

/-- `BulletChange` dataclass (comparator_fixed.py lines 17–37). -/
structure BulletChange where
  change_type : String
  original_text : Option Text
  new_text : Option Text
  position_original : Option ℕ
  position_new : Option ℕ
  keywords_added : List Text := []
  similarity_score : ℚ := 0
  deriving DecidableEq, Repr

/-- The `is_significant` property of `BulletChange`. -/
def BulletChange.significant (bc : BulletChange) : Prop :=
  if bc.change_type = "added" ∨ bc.change_type = "removed" then True
  else if bc.change_type = "ai_enhanced" then bc.keywords_added.length > 0
  else if bc.change_type = "modified" then bc.similarity_score < 0.7
  else False

/-- `SectionChange` dataclass (lines 40–61). -/
structure SectionChange where
  section_name : String
  original_content : Text
  new_content : Text
  change_type : String
  word_count_delta : ℤ
  keywords_added : List Text := []
  deriving DecidableEq, Repr

/-- `ResumeComparison` dataclass (lines 64–110), over parsed resumes
(the Python object also stores the two file paths). -/
structure ResumeComparison where
  summary_change : Option SectionChange := none
  bullet_changes : List BulletChange := []
  total_bullets_original : ℕ := 0
  total_bullets_new : ℕ := 0
  bullets_added : ℕ := 0
  bullets_removed : ℕ := 0
  bullets_modified : ℕ := 0
  bullets_ai_enhanced : ℕ := 0
  keywords_added : List Text := []
  similarity_score : ℚ := 0
  change_score : ℚ := 0
  deriving DecidableEq, Repr

/-- The `has_significant_changes` property of `ResumeComparison`:
`change_score > 10.0`. -/
def ResumeComparison.has_significant_changes (c : ResumeComparison) : Prop :=
  c.change_score > 10

/-- Lexicographic order on text (character codes), for Python
`sorted` over strings. -/
def textLE : Text → Text → Bool
  | [], _ => true
  | _ :: _, [] => false
  | a :: as2, b :: bs2 =>
    if a.toNat < b.toNat then true
    else if a = b then textLE as2 bs2
    else false

/-- Stable insertion for `sorted` over strings. -/
def insertLex (t : Text) : List Text → List Text
  | [] => [t]
  | x :: xs => if textLE x t then x :: insertLex t xs else t :: x :: xs

/-- Python `sorted` over strings. -/
def sortLex : List Text → List Text
  | [] => []
  | x :: xs => insertLex x (sortLex xs)

/-- Python `\w` (ASCII model). -/
def isWordChar (c : Char) : Bool := c.isAlphanum || c = '_'

/-- `re.findall(r'\b\w+\b', ·)`: the maximal word-character runs. -/
def wordTokensAux : Text → Text → List Text
  | [], acc => if acc = [] then [] else [acc.reverse]
  | c :: rest, acc =>
    if isWordChar c then wordTokensAux rest (c :: acc)
    else if acc = [] then wordTokensAux rest []
    else acc.reverse :: wordTokensAux rest []

/-- The word tokens of a text. -/
def wordTokens (t : Text) : List Text := wordTokensAux t []

/-- The `common_words` set of `_find_new_keywords`. -/
def comparatorCommonWords : List Text :=
  [txt "the", txt "a", txt "an", txt "and", txt "or", txt "but", txt "in",
   txt "on", txt "at", txt "to", txt "for", txt "of", txt "with", txt "by"]

/-- `ResumeComparator._find_new_keywords` (lines 347–363): words of the
new text not in the original and not common, of length > 3, sorted,
first 10. -/
def find_new_keywords (original newText : Text) : List Text :=
  let origWords := (wordTokens (lowerText original)).dedup
  let newWords := (wordTokens (lowerText newText)).dedup
  let newKeywords := newWords.filter fun w =>
    w ∉ origWords ∧ w ∉ comparatorCommonWords
  let meaningful := newKeywords.filter fun w =>
    w.length > 3 ∧ w ∉ comparatorCommonWords
  (sortLex meaningful).take 10

/-- `ResumeComparator._compare_section` (lines 191–219). -/
def compare_section (sectionName : String) (original newText : Text) :
    SectionChange :=
  let changeType :=
    if original = newText then "unchanged"
    else if original = [] then "added"
    else if newText = [] then "removed"
    else "modified"
  { section_name := sectionName, original_content := original,
    new_content := newText, change_type := changeType,
    word_count_delta :=
      ((splitWords newText).length : ℤ) - ((splitWords original).length : ℤ),
    keywords_added := find_new_keywords original newText }

/-- The mutable traversal state of `_compare_bullets`: the index sets
`used_new`/`used_orig` and the accumulated change list. -/
structure CompareState where
  usedNew : List ℕ
  usedOrig : List ℕ
  changes : List BulletChange
  deriving Repr

/-- The inner loop of pass 1 of `_compare_bullets`: the first unused new
bullet equal to the enhanced text or with similarity > 0.8. -/
def findEnhancedAux (enhanced : Text) :
    List Text → ℕ → List ℕ → Option (ℕ × Text)
  | [], _, _ => none
  | t :: rest, j, used =>
    if j ∈ used then findEnhancedAux enhanced rest (j + 1) used
    else if t = enhanced ∨ textSimilarity enhanced t > 0.8 then some (j, t)
    else findEnhancedAux enhanced rest (j + 1) used

/-- Pass 1 of `_compare_bullets` (lines 255–281): align AI-enhanced
bullets recorded in the variant metadata. -/
def pass1Aux (aiMap : List (Text × Text)) (newTexts : List Text) :
    List (ℕ × Text) → CompareState → CompareState
  | [], st => st
  | (i, origText) :: rest, st =>
    match aiMap.lookup origText with
    | some enhancedText =>
      match findEnhancedAux enhancedText newTexts 0 st.usedNew with
      | some (j, newText) =>
        pass1Aux aiMap newTexts rest
          { usedNew := st.usedNew ++ [j], usedOrig := st.usedOrig ++ [i],
            changes := st.changes ++
              [{ change_type := "ai_enhanced", original_text := some origText,
                 new_text := some newText, position_original := some i,
                 position_new := some j,
                 keywords_added := find_new_keywords origText newText,
                 similarity_score := textSimilarity origText newText }] }
      | none => pass1Aux aiMap newTexts rest st
    | none => pass1Aux aiMap newTexts rest st

/-- The inner loop of pass 2: the unused new bullet with the highest
similarity, provided it exceeds both the current best and 0.5. -/
def bestMatchAux (origText : Text) :
    List Text → ℕ → List ℕ → ℚ → Option ℕ → ℚ × Option ℕ
  | [], _, _, best, bestIdx => (best, bestIdx)
  | t :: rest, j, used, best, bestIdx =>
    if j ∈ used then bestMatchAux origText rest (j + 1) used best bestIdx
    else
      let sim := textSimilarity origText t
      if sim > best ∧ sim > 0.5 then
        bestMatchAux origText rest (j + 1) used sim (some j)
      else bestMatchAux origText rest (j + 1) used best bestIdx

/-- Pass 2 of `_compare_bullets` (lines 283–318): align the remaining
bullets by best pairwise similarity; ≥ 0.9 is `unchanged`, otherwise
`modified`. -/
def pass2Aux (newTexts : List Text) :
    List (ℕ × Text) → CompareState → CompareState
  | [], st => st
  | (i, origText) :: rest, st =>
    if i ∈ st.usedOrig then pass2Aux newTexts rest st
    else
      match bestMatchAux origText newTexts 0 st.usedNew 0 none with
      | (bestSim, some j) =>
        let newText := newTexts.getD j []
        pass2Aux newTexts rest
          { usedNew := st.usedNew ++ [j], usedOrig := st.usedOrig ++ [i],
            changes := st.changes ++
              [{ change_type := if bestSim < 0.9 then "modified" else "unchanged",
                 original_text := some origText, new_text := some newText,
                 position_original := some i, position_new := some j,
                 keywords_added := find_new_keywords origText newText,
                 similarity_score := bestSim }] }
      | (_, none) => pass2Aux newTexts rest st

/-- `ResumeComparator._compare_bullets` (lines 221–341): the three
alignment passes; unmatched originals become `removed`, unmatched new
bullets become `added`. -/
def compare_bullets (origBullets newBullets : List BulletPoint)
    (aiMap : List (Text × Text)) : List BulletChange :=
  let origTexts := origBullets.map (·.text)
  let newTexts := newBullets.map (·.text)
  let st1 := pass1Aux aiMap newTexts origTexts.enum ⟨[], [], []⟩
  let st2 := pass2Aux newTexts origTexts.enum st1
  let removed := ((origTexts.enum.filter fun p => p.1 ∉ st2.usedOrig).map
    fun p => ({ change_type := "removed", original_text := some p.2,
                new_text := none, position_original := some p.1,
                position_new := none } : BulletChange))
  let added := ((newTexts.enum.filter fun p => p.1 ∉ st2.usedNew).map
    fun p => ({ change_type := "added", original_text := none,
                new_text := some p.2, position_original := none,
                position_new := some p.1 } : BulletChange))
  st2.changes ++ removed ++ added

/-- `ResumeComparator._extract_added_keywords` (lines 365–381). -/
def extract_added_keywords (original newResume : ParsedResume) : List Text :=
  let origText := List.intercalate [' ']
    (original.summary :: original.all_bullets.map (·.text))
  let newText := List.intercalate [' ']
    (newResume.summary :: newResume.all_bullets.map (·.text))
  find_new_keywords origText newText

/-- `ResumeComparator._calculate_similarity` (lines 383–392): the ratio
over the joined bullet texts. -/
def calculate_similarity (original newResume : ParsedResume) : ℚ :=
  textSimilarity (List.intercalate [' '] (original.all_bullets.map (·.text)))
    (List.intercalate [' '] (newResume.all_bullets.map (·.text)))

/-- `ResumeComparator.compare` (lines 121–189), over the two parsed
resumes (the Python method parses the two paths first; parsing is
deterministic, so `compare(X, X)` reaches this with equal resumes).
The optional variant metadata carries the AI-enhancement map and the
recorded keyword additions. -/
def comparator_compare (original newResume : ParsedResume)
    (variant : Option (List (Text × Text) × List Text)) : ResumeComparison :=
  let aiMap := (variant.map Prod.fst).getD []
  let bulletChanges := compare_bullets original.all_bullets
    newResume.all_bullets aiMap
  let sim := calculate_similarity original newResume
  { summary_change := some (compare_section "Summary" original.summary
      newResume.summary),
    bullet_changes := bulletChanges,
    total_bullets_original := original.all_bullets.length,
    total_bullets_new := newResume.all_bullets.length,
    bullets_added := (bulletChanges.filter fun bc =>
      bc.change_type = "added").length,
    bullets_removed := (bulletChanges.filter fun bc =>
      bc.change_type = "removed").length,
    bullets_modified := (bulletChanges.filter fun bc =>
      bc.change_type = "modified").length,
    bullets_ai_enhanced := (bulletChanges.filter fun bc =>
      bc.change_type = "ai_enhanced").length,
    keywords_added := match variant with
      | some v => v.2
      | none => extract_added_keywords original newResume,
    similarity_score := sim,
    change_score := (1 - sim) * 100 }

/-- C8: the comparator is reflexive — comparing a resume with itself
(no variant metadata) reports overall similarity 1.0 and no significant
changes. -/
theorem comparator_reflexive (resume : ParsedResume) :
    (comparator_compare resume resume none).similarity_score = 1 ∧
    ¬(comparator_compare resume resume none).has_significant_changes := by
  have hsim : calculate_similarity resume resume = 1 := textSimilarity_self _
  constructor
  · exact hsim
  · unfold ResumeComparison.has_significant_changes
    show ¬((comparator_compare resume resume none).change_score > 10)
    have hcs : (comparator_compare resume resume none).change_score =
        (1 - calculate_similarity resume resume) * 100 := rfl
    rw [hcs, hsim]
    norm_num

/-! ## Keyword matcher (`src/resume/ats/matcher.py`) -/

/-- Is the character at position `i` a word character (out of range
counts as no)? -/
def wordAt (text : Text) (i : ℕ) : Bool := isWordChar (text.getD i ' ')

/-- The regex `\b` word boundary between positions `i-1` and `i`. -/
def boundaryAt (text : Text) (i : ℕ) : Bool :=
  Bool.xor (if i = 0 then false else wordAt text (i - 1)) (wordAt text i)

/-- Does the pattern `\b<kw>\b` match at position `i`? -/
def wbMatchAt (text kw : Text) (i : ℕ) : Bool :=
  startsWithT (text.drop i) kw && boundaryAt text i &&
    boundaryAt text (i + kw.length)

/-- `re.search(r'\b<kw>\b', text)` succeeds somewhere. -/
def wbFound (text kw : Text) : Bool :=
  (List.range (text.length + 1)).any fun i => wbMatchAt text kw i

/-- The positions of the non-overlapping matches of `\b<kw>\b`
(`re.finditer` / `re.findall` semantics: scan left to right, resume
after each match). -/
def wbPositionsAux (text kw : Text) : ℕ → ℕ → List ℕ
  | 0, _ => []
  | fuel + 1, i =>
    if i > text.length then []
    else if wbMatchAt text kw i then
      i :: wbPositionsAux text kw fuel (i + max kw.length 1)
    else wbPositionsAux text kw fuel (i + 1)

/-- All match positions of `\b<kw>\b`. -/
def wbPositions (text kw : Text) : List ℕ :=
  wbPositionsAux text kw (text.length + 1) 0

/-- `len(re.findall(r'\b<kw>\b', text))`. -/
def wbCount (text kw : Text) : ℕ := (wbPositions text kw).length

/-- Python `str.count(pat)`: non-overlapping substring occurrences. -/
def subCountAux (text pat : Text) : ℕ → ℕ → ℕ
  | 0, _ => 0
  | fuel + 1, i =>
    if i > text.length then 0
    else if startsWithT (text.drop i) pat then
      1 + subCountAux text pat fuel (i + max pat.length 1)
    else subCountAux text pat fuel (i + 1)

/-- Python `str.count(pat)`. -/
def subCount (text pat : Text) : ℕ := subCountAux text pat (text.length + 1) 0

/-- The action-verb table of `_calculate_context_score`. -/
def contextActionVerbs : List Text :=
  [txt "managed", txt "implemented", txt "developed", txt "created",
   txt "designed", txt "optimized", txt "improved", txt "configured",
   txt "automated", txt "deployed"]

/-- The impact-word table of `_calculate_context_score`. -/
def contextImpactWords : List Text :=
  [txt "increased", txt "reduced", txt "improved", txt "achieved",
   txt "delivered"]

/-- `KeywordMatcher._calculate_context_score` (matcher.py lines
309–350): per occurrence of the keyword, +0.3 for a nearby action verb,
+0.3 for a number (`\d+[\%\+]?` matches iff a digit occurs), +0.2 for an
impact word, the running score capped at 0.8 inside the loop and at 1.0
at the end; the ±50-character context window is lower-cased. -/
def calculate_context_score (keyword : Keyword) (text : Text) : ℚ :=
  let kwLower := lowerText keyword.text
  let positions := wbPositions text kwLower
  let score := positions.foldl
    (fun acc s =>
      let context := lowerText (sliceT text (s - 50) (s + kwLower.length + 50))
      let acc := acc + (if contextActionVerbs.any (containsSub context) then 0.3 else 0)
      let acc := acc + (if context.any Char.isDigit then 0.3 else 0)
      let acc := acc + (if contextImpactWords.any (containsSub context) then 0.2 else 0)
      min acc 0.8) 0
  min score 1

/-- `KeywordMatcher._exact_match` (lines 166–198). -/
def exact_match (keyword : Keyword) (fullText : Text)
    (sectionTexts : List (String × Text)) : Option KeywordMatch :=
  let kwLower := lowerText keyword.text
  if wbFound fullText kwLower then
    some { keyword := keyword, match_type := MatchType.exact,
           matched_text := keyword.text,
           locations := (sectionTexts.filter fun st =>
             wbFound st.2 kwLower).map Prod.fst,
           frequency := wbCount fullText kwLower,
           context_score := calculate_context_score keyword fullText }
  else none

/-- The synonym loop of `KeywordMatcher._synonym_match` (lines 200–230):
the first declared synonym found in the resume wins. -/
def synonym_matchAux (keyword : Keyword) (fullText : Text)
    (sectionTexts : List (String × Text)) :
    List Text → Option KeywordMatch
  | [] => none
  | syn :: rest =>
    let synLower := lowerText syn
    if wbFound fullText synLower then
      some { keyword := keyword, match_type := MatchType.synonym,
             matched_text := syn,
             locations := (sectionTexts.filter fun st =>
               wbFound st.2 synLower).map Prod.fst,
             frequency := wbCount fullText synLower,
             context_score := calculate_context_score keyword fullText }
    else synonym_matchAux keyword fullText sectionTexts rest

/-- `KeywordMatcher._synonym_match`. -/
def synonym_match (keyword : Keyword) (fullText : Text)
    (sectionTexts : List (String × Text)) : Option KeywordMatch :=
  synonym_matchAux keyword fullText sectionTexts keyword.synonyms

/-- First occurrences, in first-seen order. -/
def distinctFirstAux : List Text → List Text → List Text
  | [], _ => []
  | x :: xs, seen =>
    if x ∈ seen then distinctFirstAux xs seen
    else x :: distinctFirstAux xs (x :: seen)

/-- `Counter(l).most_common(1)[0][0]`: the most frequent element,
earliest-seen winning ties; `[]` for an empty list. -/
def mostCommon (l : List Text) : Text :=
  ((distinctFirstAux l []).foldl
    (fun best w =>
      match best with
      | none => some w
      | some b => if l.count w > l.count b then some w else best)
    none).getD []

/-- `KeywordMatcher._stemmed_match` (lines 232–270), over the external
Porter stemmer `stem`: resume words whose stem equals the keyword's
stem; `matched_text` is the most common matched form; locations use
plain substring containment; the Python branch leaves `context_score`
at its default 0. -/
def stemmed_match (stem : Text → Text) (keyword : Keyword)
    (fullText : Text) (sectionTexts : List (String × Text)) :
    Option KeywordMatch :=
  let kwStem := stem (lowerText keyword.text)
  let words := wordTokens fullText
  let stemMatches := words.filter fun w => stem (lowerText w) = kwStem
  if stemMatches ≠ [] then
    let matchedText := mostCommon stemMatches
    some { keyword := keyword, match_type := MatchType.stemmed,
           matched_text := matchedText,
           locations := (sectionTexts.filter fun st =>
             containsSub st.2 (lowerText matchedText)).map Prod.fst,
           frequency := stemMatches.length,
           context_score := 0 }
  else none

/-- The best-word loop of `KeywordMatcher._fuzzy_match`: the word with
the highest similarity ratio, provided it reaches the threshold. -/
def bestFuzzyAux (kwLower : Text) (threshold : ℚ) :
    List Text → ℚ → Option Text → ℚ × Option Text
  | [], best, bestWord => (best, bestWord)
  | w :: rest, best, bestWord =>
    let ratio := textSimilarity kwLower (lowerText w)
    if ratio > best ∧ ratio ≥ threshold then
      bestFuzzyAux kwLower threshold rest ratio (some w)
    else bestFuzzyAux kwLower threshold rest best bestWord

/-- `KeywordMatcher._fuzzy_match` (lines 272–307), with the
`SequenceMatcher` ratio modelled by `textSimilarity`; the Python branch
leaves `context_score` at its default 0. -/
def fuzzy_match (fuzzyThreshold : ℚ) (keyword : Keyword)
    (fullText : Text) (sectionTexts : List (String × Text)) :
    Option KeywordMatch :=
  let kwLower := lowerText keyword.text
  let words := wordTokens fullText
  match bestFuzzyAux kwLower fuzzyThreshold words 0 none with
  | (_, none) => none
  | (_, some bestWord) =>
    some { keyword := keyword, match_type := MatchType.part,
           matched_text := bestWord,
           locations := (sectionTexts.filter fun st =>
             containsSub st.2 (lowerText bestWord)).map Prod.fst,
           frequency := subCount (lowerText fullText) (lowerText bestWord),
           context_score := 0 }

/-- `KeywordMatcher` (fuzzy threshold, default 0.85, and the external
Porter stemmer). -/
structure KeywordMatcher where
  fuzzy_threshold : ℚ := 0.85
  stem : Text → Text

/-- `KeywordMatcher._match_single_keyword` (lines 129–164): try exact,
synonym, stemmed, fuzzy in that order, stopping at the first hit;
otherwise emit a MISSING match (empty text, no locations, frequency 0,
default context score 0). -/
def KeywordMatcher.match_single_keyword (self : KeywordMatcher)
    (keyword : Keyword) (fullText : Text)
    (sectionTexts : List (String × Text)) : KeywordMatch :=
  match exact_match keyword fullText sectionTexts with
  | some m => m
  | none =>
    match synonym_match keyword fullText sectionTexts with
    | some m => m
    | none =>
      match stemmed_match self.stem keyword fullText sectionTexts with
      | some m => m
      | none =>
        match fuzzy_match self.fuzzy_threshold keyword fullText sectionTexts with
        | some m => m
        | none =>
          { keyword := keyword, match_type := MatchType.missing,
            matched_text := [], locations := [], frequency := 0 }

/-- `KeywordMatcher._build_resume_text` (lines 63–95): name, summary,
experience titles/companies/bullets, education, skills, certifications,
joined with spaces (empty parts dropped) and lower-cased. -/
def build_resume_text (resume : ParsedResume) : Text :=
  lowerText (List.intercalate [' ']
    (([resume.personal.name, resume.summary] ++
      (resume.experience.map fun e =>
        [e.title, e.company] ++ e.bullets.map (·.text)).flatten ++
      (resume.education.map fun e => [e.degree, e.institution]).flatten ++
      resume.skills.technical ++ resume.skills.tools ++
      resume.skills.languages ++ resume.certifications).filter (· ≠ [])))

/-- `KeywordMatcher._build_section_texts` (lines 97–127). -/
def build_section_texts (resume : ParsedResume) : List (String × Text) :=
  (if resume.summary ≠ [] then [("summary", lowerText resume.summary)] else []) ++
  [("experience", lowerText (List.intercalate [' ']
      (((resume.experience.map fun e =>
        [e.title, e.company] ++ e.bullets.map (·.text)).flatten).filter (· ≠ [])))),
   ("skills", lowerText (List.intercalate [' ']
      ((resume.skills.technical ++ resume.skills.tools).filter (· ≠ [])))),
   ("education", lowerText (List.intercalate [' ']
      (((resume.education.map fun e => [e.degree, e.institution]).flatten).filter (· ≠ []))))]

/-- `KeywordMatcher.match_keywords` (lines 29–61): one `KeywordMatch`
per input keyword, in order. -/
def KeywordMatcher.match_keywords (self : KeywordMatcher)
    (resume : ParsedResume) (keywords : List Keyword) : List KeywordMatch :=
  let fullText := build_resume_text resume
  let sectionTexts := build_section_texts resume
  keywords.map fun kw => self.match_single_keyword kw fullText sectionTexts

theorem exact_match_some (keyword : Keyword) (fullText : Text)
    (sectionTexts : List (String × Text)) (m : KeywordMatch)
    (h : exact_match keyword fullText sectionTexts = some m) :
    m.match_type = MatchType.exact ∧ m.keyword = keyword := by
  unfold exact_match at h
  dsimp only at h
  split_ifs at h
  cases h
  exact ⟨rfl, rfl⟩

theorem synonym_matchAux_some (keyword : Keyword) (fullText : Text)
    (sectionTexts : List (String × Text)) :
    ∀ (syns : List Text) (m : KeywordMatch),
      synonym_matchAux keyword fullText sectionTexts syns = some m →
      m.match_type = MatchType.synonym ∧ m.keyword = keyword := by
  intro syns
  induction syns with
  | nil => intro m h; simp [synonym_matchAux] at h
  | cons s rest ih =>
    intro m h
    rw [synonym_matchAux] at h
    try dsimp only at h
    split_ifs at h
    · cases h
      exact ⟨rfl, rfl⟩
    · exact ih m h

theorem synonym_match_some (keyword : Keyword) (fullText : Text)
    (sectionTexts : List (String × Text)) (m : KeywordMatch)
    (h : synonym_match keyword fullText sectionTexts = some m) :
    m.match_type = MatchType.synonym ∧ m.keyword = keyword :=
  synonym_matchAux_some keyword fullText sectionTexts keyword.synonyms m h

theorem stemmed_match_some (stem : Text → Text) (keyword : Keyword)
    (fullText : Text) (sectionTexts : List (String × Text)) (m : KeywordMatch)
    (h : stemmed_match stem keyword fullText sectionTexts = some m) :
    m.match_type = MatchType.stemmed ∧ m.keyword = keyword := by
  unfold stemmed_match at h
  dsimp only at h
  split_ifs at h
  cases h
  exact ⟨rfl, rfl⟩

theorem fuzzy_match_some (fuzzyThreshold : ℚ) (keyword : Keyword)
    (fullText : Text) (sectionTexts : List (String × Text)) (m : KeywordMatch)
    (h : fuzzy_match fuzzyThreshold keyword fullText sectionTexts = some m) :
    m.match_type = MatchType.part ∧ m.keyword = keyword := by
  unfold fuzzy_match at h
  dsimp only at h
  rcases hbf : bestFuzzyAux (lowerText keyword.text) fuzzyThreshold
      (wordTokens fullText) 0 none with ⟨r, ow⟩
  rw [hbf] at h
  rcases ow with _ | w
  · cases h
  · cases h
    exact ⟨rfl, rfl⟩

theorem match_single_keyword_keyword (self : KeywordMatcher) (kw : Keyword)
    (ft : Text) (st : List (String × Text)) :
    (self.match_single_keyword kw ft st).keyword = kw := by
  unfold KeywordMatcher.match_single_keyword
  rcases he : exact_match kw ft st with _ | me
  · rcases hs : synonym_match kw ft st with _ | ms
    · rcases hst : stemmed_match self.stem kw ft st with _ | mst
      · rcases hf : fuzzy_match self.fuzzy_threshold kw ft st with _ | mf
        · simp [he, hs, hst, hf]
        · simp [he, hs, hst, hf, (fuzzy_match_some _ _ _ _ _ hf).2]
      · simp [he, hs, hst, (stemmed_match_some _ _ _ _ _ hst).2]
    · simp [he, hs, (synonym_match_some _ _ _ _ hs).2]
  · simp [he, (exact_match_some _ _ _ _ he).2]

/-- C2: the matcher returns exactly one `KeywordMatch` per input
keyword (same length, i-th match carries the i-th keyword); each
keyword is tried in the fixed order exact, synonym, stemmed, fuzzy,
stopping at the first mode that hits; and the produced match has
`match_type = MISSING` precisely when all four modes fail — so each
(keyword, resume) pair is exactly one of matched or missing. -/
theorem matcher_one_match_per_keyword (self : KeywordMatcher)
    (resume : ParsedResume) (keywords : List Keyword) :
    (self.match_keywords resume keywords).length = keywords.length ∧
    (∀ i : ℕ, ((self.match_keywords resume keywords)[i]?).map
        (fun m => m.keyword) = keywords[i]?) ∧
    (∀ (kw : Keyword) (ft : Text) (st : List (String × Text)),
      (∀ m, exact_match kw ft st = some m →
        self.match_single_keyword kw ft st = m ∧
          m.match_type = MatchType.exact) ∧
      (exact_match kw ft st = none →
        ∀ m, synonym_match kw ft st = some m →
          self.match_single_keyword kw ft st = m ∧
            m.match_type = MatchType.synonym) ∧
      (exact_match kw ft st = none → synonym_match kw ft st = none →
        ∀ m, stemmed_match self.stem kw ft st = some m →
          self.match_single_keyword kw ft st = m ∧
            m.match_type = MatchType.stemmed) ∧
      (exact_match kw ft st = none → synonym_match kw ft st = none →
        stemmed_match self.stem kw ft st = none →
        ∀ m, fuzzy_match self.fuzzy_threshold kw ft st = some m →
          self.match_single_keyword kw ft st = m ∧
            m.match_type = MatchType.part) ∧
      ((self.match_single_keyword kw ft st).match_type = MatchType.missing ↔
        exact_match kw ft st = none ∧ synonym_match kw ft st = none ∧
          stemmed_match self.stem kw ft st = none ∧
          fuzzy_match self.fuzzy_threshold kw ft st = none) ∧
      (self.match_single_keyword kw ft st).keyword = kw) := by
  refine ⟨?_, ?_, ?_⟩
  · simp [KeywordMatcher.match_keywords]
  · intro i
    unfold KeywordMatcher.match_keywords
    dsimp only
    rw [List.getElem?_map]
    rcases h : keywords[i]? with _ | kw
    · rfl
    · simp [match_single_keyword_keyword]
  · intro kw ft st
    refine ⟨?_, ?_, ?_, ?_, ?_, match_single_keyword_keyword self kw ft st⟩
    · intro m hm
      refine ⟨?_, (exact_match_some _ _ _ _ hm).1⟩
      unfold KeywordMatcher.match_single_keyword
      simp [hm]
    · intro he m hm
      refine ⟨?_, (synonym_match_some _ _ _ _ hm).1⟩
      unfold KeywordMatcher.match_single_keyword
      simp [he, hm]
    · intro he hs m hm
      refine ⟨?_, (stemmed_match_some _ _ _ _ _ hm).1⟩
      unfold KeywordMatcher.match_single_keyword
      simp [he, hs, hm]
    · intro he hs hst m hm
      refine ⟨?_, (fuzzy_match_some _ _ _ _ _ hm).1⟩
      unfold KeywordMatcher.match_single_keyword
      simp [he, hs, hst, hm]
    · unfold KeywordMatcher.match_single_keyword
      rcases he : exact_match kw ft st with _ | me
      · rcases hs : synonym_match kw ft st with _ | ms
        · rcases hst : stemmed_match self.stem kw ft st with _ | mst
          · rcases hf : fuzzy_match self.fuzzy_threshold kw ft st with _ | mf
            · simp [he, hs, hst, hf]
            · simp [he, hs, hst, hf, (fuzzy_match_some _ _ _ _ _ hf).1]
          · simp [he, hs, hst, (stemmed_match_some _ _ _ _ _ hst).1]
        · simp [he, hs, (synonym_match_some _ _ _ _ hs).1]
      · simp [he, (exact_match_some _ _ _ _ he).1]

/-- A concrete resume text for the matcher witness. -/
def ftW : Text := txt "used kafka daily"

/-- Its section map. -/
def stW : List (String × Text) := [("experience", ftW)]

/-- The exact match the matcher produces for `kw0` on `ftW`. -/
def mExactW : KeywordMatch :=
  { keyword := kw0, match_type := MatchType.exact, matched_text := kw0.text,
    locations := (stW.filter fun st =>
      wbFound st.2 (lowerText kw0.text)).map Prod.fst,
    frequency := wbCount ftW (lowerText kw0.text),
    context_score := calculate_context_score kw0 ftW }

/-- A matcher instance (default threshold, identity stand-in for the
external stemmer). -/
def matcherW : KeywordMatcher := { stem := fun t => t }

/-- Witness for C2: on the concrete text "used kafka daily" the keyword
"kafka" matches in exact mode, and the dispatcher returns that match. -/
theorem matcher_one_match_per_keyword_witness :
    matcherW.match_single_keyword kw0 ftW stW = mExactW ∧
    mExactW.match_type = MatchType.exact :=
  ((matcher_one_match_per_keyword matcherW resume0 []).2.2 kw0 ftW stW).1
    mExactW rfl

/-- An experience match with a negative duration, as the evaluator
produces for a reversed date range: `_extract_year` reads 2030 and
2020 from "2030 -- 2020" and `_calculate_duration` returns
`(2020 − 2030) * 12 = −120` months, unclamped. -/
def negDurationMatch : ExperienceMatch :=
  { job_title := txt "engineer", company := txt "acme",
    relevance_score := 0.6, duration_months := -120, recency_score := 1 }

/-- C1 counterexample: with one reachable negative-duration experience
match (reversed date range) and a one-year requirement, the fit
experience component evaluates to −356, outside the claimed [0, 100]. -/
theorem experience_fit_component_below_zero_counterexample :
    calculate_experience_fit_score [negDurationMatch] 1 = -356 ∧
    calculate_experience_fit_score [negDurationMatch] 1 < 0 := by
  have hp : negDurationMatch.relevance_score > (0.5:ℚ) := by
    norm_num [negDurationMatch]
  have hfil : ([negDurationMatch].filter fun m => m.relevance_score > 0.5) =
      [negDurationMatch] := by
    simp only [List.filter_cons, List.filter_nil, decide_eq_true_eq]
    rw [if_pos hp]
  have hval : calculate_experience_fit_score [negDurationMatch] 1 = -356 := by
    unfold calculate_experience_fit_score
    rw [if_neg (by simp)]
    dsimp only
    rw [hfil]
    simp only [negDurationMatch, List.map_cons, List.map_nil, List.sum_cons,
      List.sum_nil, List.length_cons, List.length_nil]
    norm_num [min_def]
  exact ⟨hval, by rw [hval]; norm_num⟩

end JobApp
